import Mathlib

/-!
Verification development for the PDFRecognitionAPI repository.

This file shallowly embeds the algorithmic core of the repository —
`app/services/figure_mapper.py`, `app/services/reference_extractor.py`,
`app/services/figure_id_generator.py`, the `BoundingBox` dataclass of
`app/services/figure_grouper.py`, and the per-document orchestration loop of
`app/api/analyze.py` — and proves or refutes the specification claims about
them.

Modelling conventions:
* Python values flowing through the dynamically typed dictionaries are
  modelled by the inductive type `Val`; dictionaries are association lists
  with insertion-order update semantics (`setKey`), matching CPython dicts.
* Python `float` arithmetic is modelled by exact fractions `Qv`
  (numerator/denominator pairs of integers, denominators kept positive by
  construction).  Every weight computed by the mapper is a small exact
  decimal, so no claim in scope depends on binary rounding.  The only
  irrational operation, `** 0.5` in `_calculate_distance`, is modelled by
  `qSqrt`, which is exact whenever the radicand is a perfect square; every
  concrete evaluation in this file hits the exact case.
* Fallible Python operations (`int(x)` on a non-numeric value, attribute
  access on a non-dict) are modelled in the `Except String` monad; the
  string names the Python exception class.
* Regular expressions are embedded as an explicit backtracking matcher
  (`mtchS`/`mtchF`) over a small regex AST that mirrors Python `re`
  semantics (leftmost search, greedy quantifiers, ordered alternation,
  word boundaries, lookarounds, `IGNORECASE`); each pattern string of the
  source is transcribed into that AST.
-/

/-! ## Exact fractions standing in for Python floats -/

/-- An exact fraction `num/den`.  All constructors used below keep `den`
positive, so the cross-multiplication comparisons are order-correct. -/
structure Qv where
  num : Int
  den : Int
  deriving DecidableEq

def qI (n : Int) : Qv := ⟨n, 1⟩

def mkQ (n d : Int) : Qv := ⟨n, d⟩

def qAdd (a b : Qv) : Qv := ⟨a.num * b.den + b.num * a.den, a.den * b.den⟩

def qSub (a b : Qv) : Qv := ⟨a.num * b.den - b.num * a.den, a.den * b.den⟩

def qMul (a b : Qv) : Qv := ⟨a.num * b.num, a.den * b.den⟩

/-- Division; only ever used with a divisor whose numerator is positive. -/
def qDiv (a b : Qv) : Qv := ⟨a.num * b.den, a.den * b.num⟩

def qLtB (a b : Qv) : Bool := decide (a.num * b.den < b.num * a.den)

def qLeB (a b : Qv) : Bool := decide (a.num * b.den ≤ b.num * a.den)

def qEqB (a b : Qv) : Bool := decide (a.num * b.den = b.num * a.den)

def qMax0 (a : Qv) : Qv := if qLtB a (qI 0) then qI 0 else a

def qSum (l : List Qv) : Qv := l.foldl qAdd (qI 0)

/-- Largest `k ≤ fuel` with `k * k ≤ n` (linear descent; evaluated only on
tiny radicands in this file). -/
def sqrtDown (n : Nat) : Nat → Nat
  | 0 => 0
  | k+1 => if (k+1) * (k+1) ≤ n then k+1 else sqrtDown n k

def isqrt (n : Nat) : Nat := sqrtDown n n

/-- Square root of a nonnegative fraction: `sqrt (n/d) = sqrt (n*d) / d`.
Exact whenever `n*d` is a perfect square (the case hit by every concrete
evaluation below); the Python source computes a float square root. -/
def qSqrt (a : Qv) : Qv := ⟨Int.ofNat (isqrt (a.num.toNat * a.den.toNat)), a.den⟩

/-- Python `int()` truncation toward zero of a fraction (positive `den`). -/
def qTrunc (a : Qv) : Int := Int.tdiv a.num a.den

/-! ## Python value model -/

/-- A dynamically typed Python value as it flows through the services'
dictionaries.  Floats are represented by `Qv`. -/
inductive Val where
  | vStr (s : String)
  | vInt (n : Int)
  | vQ (q : Qv)
  | vBool (b : Bool)
  | vNone
  | vDict (entries : List (String × Val))

abbrev PyDict := List (String × Val)

def dictLookup : PyDict → String → Option Val
  | [], _ => none
  | (k, v) :: rest, key => if k = key then some v else dictLookup rest key

/-- Python `d.get(key, default)`. -/
def pyGet (d : PyDict) (key : String) (dflt : Val) : Val :=
  (dictLookup d key).getD dflt

def hasKey (d : PyDict) (key : String) : Bool :=
  (dictLookup d key).isSome

/-- Python `d[key] = v`: update in place if present, else append (CPython
dicts preserve insertion order). -/
def setKey : PyDict → String → Val → PyDict
  | [], key, v => [(key, v)]
  | (k, w) :: rest, key, v =>
    if k = key then (k, v) :: rest else (k, w) :: setKey rest key v

def asDict : Val → Option PyDict
  | .vDict d => some d
  | _ => none

/-- Python truthiness. -/
def pyTruthy : Val → Bool
  | .vStr s => !s.isEmpty
  | .vInt n => n ≠ 0
  | .vQ q => q.num ≠ 0
  | .vBool b => b
  | .vNone => false
  | .vDict d => !d.isEmpty

/-! ### Decimal integer formatting (Python `str(int)` / f-strings) -/

def digitCh : Nat → Char
  | 0 => '0' | 1 => '1' | 2 => '2' | 3 => '3' | 4 => '4'
  | 5 => '5' | 6 => '6' | 7 => '7' | 8 => '8' | _ => '9'

def natReprAux : Nat → Nat → List Char
  | 0, _ => []
  | f+1, n => if n < 10 then [digitCh n] else natReprAux f (n / 10) ++ [digitCh (n % 10)]

/-- Decimal digits of a natural number, most significant first. -/
def natReprChars (n : Nat) : List Char := natReprAux (n + 1) n

/-- Python decimal rendering of an integer. -/
def intReprChars (n : Int) : List Char :=
  if n < 0 then '-' :: natReprChars (-n).toNat else natReprChars n.toNat

/-! ### `str()`, `int()`, `float()` and basic string operations -/

def lBrace : Char := Char.ofNat 123

def rBrace : Char := Char.ofNat 125

/-- `str(v)` with a depth budget for nested dicts (CPython recurses; no
claim in scope observes the rendering of a dict or float beyond its
nonemptiness, see the dict/float cases). -/
def pyStrD : Nat → Val → List Char
  | _, .vStr s => s.toList
  | _, .vInt n => intReprChars n
  | _, .vQ q => intReprChars q.num ++ '/' :: intReprChars q.den
  | _, .vBool b => if b then "True".toList else "False".toList
  | _, .vNone => "None".toList
  | 0, .vDict _ => [lBrace, rBrace]
  | f+1, .vDict d =>
    lBrace :: (d.foldl (fun acc kv =>
      acc ++ '\'' :: kv.1.toList ++ '\'' :: ':' :: ' ' :: pyStrD f kv.2) []) ++ [rBrace]

def pyStrChars (v : Val) : List Char := pyStrD 100 v

def isDigitCh (c : Char) : Bool := decide ('0' ≤ c ∧ c ≤ '9')

def isWsCh (c : Char) : Bool :=
  c == ' ' || c == '\t' || c == '\n' || c == '\r' || c == '\x0b' || c == '\x0c'

def digitVal (c : Char) : Nat := c.toNat - 48

def parseDigitsAcc : List Char → Nat → Nat
  | [], acc => acc
  | c :: cs, acc => parseDigitsAcc cs (10 * acc + digitVal c)

def allDigits (l : List Char) : Bool := l.all isDigitCh

def trimWsLeft : List Char → List Char
  | [] => []
  | c :: cs => if isWsCh c then trimWsLeft cs else c :: cs

def trimWs (l : List Char) : List Char :=
  (trimWsLeft (trimWsLeft l.reverse).reverse)

/-- Parse of `int(string)`: optional surrounding whitespace, optional sign,
then a nonempty run of decimal digits. -/
def parseIntChars (l : List Char) : Option Int :=
  let t := trimWs l
  match t with
  | '-' :: ds => if ds ≠ [] ∧ allDigits ds then some (-(Int.ofNat (parseDigitsAcc ds 0))) else none
  | '+' :: ds => if ds ≠ [] ∧ allDigits ds then some (Int.ofNat (parseDigitsAcc ds 0)) else none
  | ds => if ds ≠ [] ∧ allDigits ds then some (Int.ofNat (parseDigitsAcc ds 0)) else none

/-- Python `int(v)`.  Strings must parse as a decimal integer
(`ValueError` otherwise); floats truncate toward zero; `None` and dicts
raise `TypeError`. -/
def pyIntE : Val → Except String Int
  | .vInt n => .ok n
  | .vBool b => .ok (if b then 1 else 0)
  | .vQ q => .ok (qTrunc q)
  | .vStr s =>
    match parseIntChars s.toList with
    | some n => .ok n
    | none => .error "ValueError"
  | .vNone => .error "TypeError"
  | .vDict _ => .error "TypeError"

/-- Parse of `float(string)` restricted to the decimal forms
`[-]digits[.digits]` (sufficient for every value this repository feeds to
`float`). -/
def parseFloatChars (l : List Char) : Option Qv :=
  let t := trimWs l
  let core := fun (ds : List Char) (sign : Int) =>
    match ds.splitOn '.' with
    | [a] => if a ≠ [] ∧ allDigits a then some (qI (sign * Int.ofNat (parseDigitsAcc a 0))) else none
    | [a, b] =>
      if a ≠ [] ∧ b ≠ [] ∧ allDigits a ∧ allDigits b then
        some (mkQ (sign * Int.ofNat (parseDigitsAcc (a ++ b) 0)) (Int.ofNat (10 ^ b.length)))
      else none
    | _ => none
  match t with
  | '-' :: ds => core ds (-1)
  | ds => core ds 1

/-- Python `float(v)`. -/
def pyFloatE : Val → Except String Qv
  | .vInt n => .ok (qI n)
  | .vQ q => .ok q
  | .vBool b => .ok (qI (if b then 1 else 0))
  | .vStr s =>
    match parseFloatChars s.toList with
    | some q => .ok q
    | none => .error "ValueError"
  | .vNone => .error "TypeError"
  | .vDict _ => .error "TypeError"

def asciiLower (c : Char) : Char :=
  if 'A' ≤ c ∧ c ≤ 'Z' then Char.ofNat (c.toNat + 32) else c

def lowerL (l : List Char) : List Char := l.map asciiLower

/-- Whether `pat` occurs as a contiguous sublist of `s` (Python `in`). -/
def isSubL (pat s : List Char) : Bool :=
  match s with
  | [] => pat.isEmpty
  | _ :: rest => pat.isPrefixOf s || isSubL pat rest

/-- Python `str.split()`: split on whitespace runs, dropping empties. -/
def splitWsAux : List Char → List Char → List (List Char)
  | [], cur => if cur.isEmpty then [] else [cur.reverse]
  | c :: cs, cur =>
    if isWsCh c then
      if cur.isEmpty then splitWsAux cs [] else cur.reverse :: splitWsAux cs []
    else splitWsAux cs (c :: cur)

def splitWs (l : List Char) : List (List Char) := splitWsAux l []

def dedupL : List (List Char) → List (List Char)
  | [] => []
  | x :: xs => if x ∈ xs then dedupL xs else x :: dedupL xs

/-! ## Regular-expression engine (Python `re` semantics) -/

/-- Regex AST: the constructs used by the repository's patterns.
Alternation and quantifiers follow Python's ordered / greedy semantics. -/
inductive RE where
  | eps
  | cls (p : Char → Bool)
  | seq (a b : RE)
  | alt (a b : RE)
  | star (a : RE)
  | opt (a : RE)
  | grp (a : RE)
  | wb
  | nlb (p : Char → Bool)
  | nla (p : Char → Bool)
  | la (a : RE)

abbrev Span := Nat × Nat
abbrev MRes := Option (Nat × Option Span)
abbrev MCont := Nat → Option Span → MRes

def isWordChar (c : Char) : Bool := c.isAlphanum || c = '_'

def wordBoundary (s : List Char) (i : Nat) : Bool :=
  let pre := i ≠ 0 && (match s.get? (i-1) with | some c => isWordChar c | none => false)
  let post := match s.get? i with | some c => isWordChar c | none => false
  pre != post

/-- One backtracking step, structural on the regex; `rec` restarts a `star`
after its body consumed at least one character (Python's empty-loop guard:
none of the transcribed star bodies can match empty).  `k` is the success
continuation, carrying the end position and the group-1 capture. -/
def mtchS (s : List Char) (rec : RE → Nat → Option Span → MCont → MRes) :
    RE → Nat → Option Span → MCont → MRes
  | .eps, i, c, k => k i c
  | .cls p, i, c, k =>
    match s.get? i with
    | some ch => if p ch then k (i+1) c else none
    | none => none
  | .seq a b, i, c, k => mtchS s rec a i c (fun j c2 => mtchS s rec b j c2 k)
  | .alt a b, i, c, k => (mtchS s rec a i c k).orElse (fun _ => mtchS s rec b i c k)
  | .opt a, i, c, k => (mtchS s rec a i c k).orElse (fun _ => k i c)
  | .star a, i, c, k =>
    (mtchS s rec a i c (fun j c2 => if i < j then rec (.star a) j c2 k else none)).orElse
      (fun _ => k i c)
  | .grp a, i, c, k => mtchS s rec a i c (fun j _ => k j (some (i, j)))
  | .wb, i, c, k => if wordBoundary s i then k i c else none
  | .nlb p, i, c, k =>
    if i = 0 then k i c
    else match s.get? (i-1) with
      | some ch => if p ch then none else k i c
      | none => k i c
  | .nla p, i, c, k =>
    match s.get? i with
    | some ch => if p ch then none else k i c
    | none => k i c
  | .la a, i, c, k =>
    match mtchS s rec a i none (fun j c2 => some (j, c2)) with
    | some _ => k i c
    | none => none

def mtchF (s : List Char) : Nat → RE → Nat → Option Span → MCont → MRes
  | 0, _, _, _, _ => none
  | f+1, r, i, c, k => mtchS s (mtchF s f) r i c k

/-- Attempt to match `r` anchored at position `i`; the position strictly
increases at every star restart, so `s.length + 4` fuel never runs out. -/
def tryAt (s : List Char) (r : RE) (i : Nat) : MRes :=
  mtchF s (s.length + 4) r i none (fun j c => some (j, c))

def searchAux (s : List Char) (r : RE) : Nat → Nat → Option (Nat × Nat × Option Span)
  | _, 0 => none
  | i, f+1 =>
    match tryAt s r i with
    | some (j, c) => some (i, j, c)
    | none => searchAux s r (i+1) f

/-- `re.search` from a start offset: leftmost match wins. -/
def reSearch (s : List Char) (r : RE) (start : Nat) : Option (Nat × Nat × Option Span) :=
  searchAux s r start (s.length + 1 - start)

def findIterAux (s : List Char) (r : RE) : Nat → Nat → List (Nat × Nat)
  | _, 0 => []
  | pos, f+1 =>
    match reSearch s r pos with
    | some (i, j, _) => (i, j) :: findIterAux s r (max j (i+1)) f
    | none => []

/-- `re.finditer`: successive non-overlapping leftmost matches. -/
def findIter (s : List Char) (r : RE) : List (Nat × Nat) :=
  findIterAux s r 0 (s.length + 1)

/-! ### Pattern combinators (transcriptions of the source regex strings) -/

/-- Case-insensitive literal (all patterns are compiled with
`re.IGNORECASE`). -/
def litCI : List Char → RE
  | [] => .eps
  | c :: cs => .seq (.cls (fun ch => asciiLower ch = c)) (litCI cs)

def chC (c : Char) : RE := .cls (fun ch => ch = c)

def digitC : RE := .cls isDigitCh

def wsC : RE := .cls isWsCh

def rePlus (a : RE) : RE := .seq a (.star a)

def reSeqs : List RE → RE
  | [] => .eps
  | [r] => r
  | r :: rs => .seq r (reSeqs rs)

/-- `\d+(?:\.\d+)*` — the dotted number form shared by all patterns. -/
def reNum : RE := .seq (rePlus digitC) (.star (.seq (chC '.') (rePlus digitC)))

/-- `\(` ... `\)` around a regex. -/
def parens (r : RE) : RE := reSeqs [chC '(', r, chC ')']

def sliceL (l : List Char) (a b : Nat) : List Char := (l.drop a).take (b - a)

def alookup {α β : Type} [DecidableEq α] : List (α × β) → α → Option β
  | [], _ => none
  | (k, v) :: rest, key => if k = key then some v else alookup rest key

/-! ## figure_mapper.py -/

/-- `ReferenceType` enum. -/
inductive RefType where
  | FIGURE | TABLE | EQUATION | EXAMPLE | ALGORITHM | UNKNOWN
  deriving DecidableEq

def RefType.val : RefType → String
  | .FIGURE => "figure"
  | .TABLE => "table"
  | .EQUATION => "equation"
  | .EXAMPLE => "example"
  | .ALGORITHM => "algorithm"
  | .UNKNOWN => "unknown"

/-- `kw(?:sfx)?\.?\s*(\d+(?:\.\d+)*)` — the shared shape of the mapper's
keyword patterns (`sfx = []` when the keyword has no optional tail). -/
def kwDotNumGrp (kw sfx : List Char) : RE :=
  reSeqs [litCI kw, .opt (litCI sfx), .opt (chC '.'), .star wsC, .grp reNum]

/-- `kw(?:sfx)?\.?\s*\((\d+(?:\.\d+)*)\)`. -/
def kwDotParenNumGrp (kw sfx : List Char) : RE :=
  reSeqs [litCI kw, .opt (litCI sfx), .opt (chC '.'), .star wsC, parens (.grp reNum)]

/-- `(?<!\w)\((\d+(?:\.\d+)*)\)(?!\w)` — the bare parenthesised number. -/
def bareParenGrp : RE :=
  reSeqs [.nlb isWordChar, parens (.grp reNum), .nla isWordChar]

/-- `FigureMapper.type_patterns`, flattened in dict/list insertion order
(the order `_extract_typed_id_from_reference` tries them in). -/
def mapper_type_patterns : List (RefType × RE) :=
  [ (.FIGURE, kwDotNumGrp "fig".toList "ure".toList),
    (.FIGURE, kwDotNumGrp "그림".toList []),
    (.TABLE, kwDotNumGrp "tab".toList "le".toList),
    (.TABLE, kwDotNumGrp "표".toList []),
    (.EQUATION, kwDotParenNumGrp "eq".toList "uation".toList),
    (.EQUATION, kwDotNumGrp "eq".toList "uation".toList),
    (.EQUATION, bareParenGrp),
    (.EQUATION, kwDotParenNumGrp "식".toList []),
    (.EXAMPLE, kwDotNumGrp "ex".toList "ample".toList),
    (.EXAMPLE, kwDotNumGrp "예제".toList []),
    (.ALGORITHM, kwDotNumGrp "alg".toList "orithm".toList),
    (.ALGORITHM, kwDotNumGrp "알고리즘".toList []) ]

def firstPatternMatch {α : Type} (tl : List Char) :
    List (α × RE) → Option (α × List Char)
  | [] => none
  | (t, p) :: rest =>
    match reSearch tl p 0 with
    | some (_, _, some (a, b)) => some (t, sliceL tl a b)
    | some (_, _, none) => some (t, [])
    | none => firstPatternMatch tl rest

/-- `FigureMapper._extract_typed_id_from_reference`. -/
def extract_typed_id_from_reference (refText : List Char) : RefType × Option (List Char) :=
  if refText.isEmpty then (.UNKNOWN, none)
  else
    match firstPatternMatch (lowerL refText) mapper_type_patterns with
    | some (t, g1) => (t, some g1)
    | none => (.UNKNOWN, none)

def anySub (kws : List String) (t : List Char) : Bool :=
  kws.any (fun k => isSubL k.toList t)

/-- `FigureMapper._get_figure_type`. -/
def get_figure_type (figure : PyDict) : RefType :=
  let ft := lowerL (pyStrChars (pyGet figure "type" (.vStr "")))
  let fx := lowerL (pyStrChars (pyGet figure "text" (.vStr "")))
  if isSubL "table".toList ft then .TABLE
  else if isSubL "formula".toList ft || isSubL "equation".toList ft then .EQUATION
  else if isSubL "algorithm".toList ft then .ALGORITHM
  else if isSubL "figure".toList ft || isSubL "image".toList ft then .FIGURE
  else if anySub ["table", "표"] fx then .TABLE
  else if anySub ["equation", "eq.", "식"] fx then .EQUATION
  else if anySub ["example", "ex.", "예제"] fx then .EXAMPLE
  else if anySub ["algorithm", "alg.", "알고리즘"] fx then .ALGORITHM
  else if anySub ["figure", "fig.", "그림"] fx then .FIGURE
  else .FIGURE

def compatList : RefType → List RefType
  | .EQUATION => [.EQUATION]
  | .FIGURE => [.FIGURE]
  | .TABLE => [.TABLE]
  | .EXAMPLE => [.EXAMPLE, .FIGURE]
  | .ALGORITHM => [.ALGORITHM, .FIGURE]
  | .UNKNOWN => []

/-- `FigureMapper._is_type_compatible`. -/
def is_type_compatible (rt ft : RefType) : Bool :=
  rt = ft || (compatList rt).contains ft

/-- `FigureMapper._is_id_match`. -/
def is_id_match (refId : List Char) (figData : PyDict) : Bool :=
  if refId.isEmpty || figData.isEmpty then false
  else
    let figId := pyStrChars (pyGet figData "figure_id" (.vStr ""))
    if figId = refId then true
    else isSubL refId (lowerL (pyStrChars (pyGet figData "text" (.vStr ""))))

/-! ### The resolution graph (`networkx.DiGraph` semantics) -/

/-- Node attribute record.  `networkx.add_node` merges attribute dicts, so
re-adding a key overwrites exactly the attributes the new call passes;
fields a write does not mention keep their old value.  Unset attributes
hold the defaults below (`ntype = ""` marks a node no `add_node` call has
tagged yet). -/
structure NodeData where
  ntype : String
  fig_type : RefType
  ref_type : RefType
  ref_id : Option (List Char)
  data : PyDict
  page_idx : Int
  bbox : Val
  text : List Char

def defaultNode : NodeData :=
  ⟨"", .UNKNOWN, .UNKNOWN, none, [], 0, .vDict [], []⟩

structure EdgeData where
  weight : Qv
  relation : String
  distAttr : Option Qv

/-- The mapper's graph.  `edges` keeps one entry per ordered node pair
(`DiGraph`: re-adding overwrites in place); `addLog` records every
`add_edge` call in order, so claims about "all edges added between a pair"
can be stated even though `DiGraph` keeps only the last one. -/
structure Graph where
  nodes : List (List Char × NodeData)
  edges : List (List Char × List Char × EdgeData)
  addLog : List (List Char × List Char × Qv × String)

def emptyG : Graph := ⟨[], [], []⟩

def findNode (g : Graph) (k : List Char) : Option NodeData :=
  alookup g.nodes k

def updNodes (ns : List (List Char × NodeData)) (key : List Char)
    (f : NodeData → NodeData) : List (List Char × NodeData) :=
  match ns with
  | [] => [(key, f defaultNode)]
  | (k, nd) :: rest =>
    if k = key then (k, f nd) :: rest else (k, nd) :: updNodes rest key f

/-- `add_node(fig_id, type='figure', fig_type=…, data=…, page_idx=…,
bbox=…, text=…)`. -/
def addNodeFig (g : Graph) (key : List Char) (ft : RefType) (dat : PyDict)
    (pidx : Int) (bb : Val) (tx : List Char) : Graph :=
  { g with nodes := updNodes g.nodes key (fun nd =>
      { nd with ntype := "figure", fig_type := ft, data := dat,
                page_idx := pidx, bbox := bb, text := tx }) }

/-- `add_node(ref_node_id, type='reference', ref_type=…, ref_id=…, data=…,
text=…, bbox=…, page_idx=…)`. -/
def addNodeRef (g : Graph) (key : List Char) (rt : RefType)
    (rid : Option (List Char)) (dat : PyDict) (tx : List Char) (bb : Val)
    (pidx : Int) : Graph :=
  { g with nodes := updNodes g.nodes key (fun nd =>
      { nd with ntype := "reference", ref_type := rt, ref_id := rid,
                data := dat, text := tx, bbox := bb, page_idx := pidx }) }

def ensureNode (ns : List (List Char × NodeData)) (key : List Char) :
    List (List Char × NodeData) :=
  if (alookup ns key).isSome then ns else ns ++ [(key, defaultNode)]

def updEdges (es : List (List Char × List Char × EdgeData)) (u v : List Char)
    (w : Qv) (rel : String) (dist : Option Qv) :
    List (List Char × List Char × EdgeData) :=
  match es with
  | [] => [(u, v, ⟨w, rel, dist⟩)]
  | (a, b, ed) :: rest =>
    if a = u ∧ b = v then
      (a, b, ⟨w, rel, match dist with | some d => some d | none => ed.distAttr⟩) :: rest
    else (a, b, ed) :: updEdges rest u v w rel dist

/-- `add_edge`: creates missing endpoints like networkx, overwrites the
attributes of an existing `(u, v)` edge in place, and appends to the call
log. -/
def addEdge (g : Graph) (u v : List Char) (w : Qv) (rel : String)
    (dist : Option Qv) : Graph :=
  { nodes := ensureNode (ensureNode g.nodes u) v,
    edges := updEdges g.edges u v w rel dist,
    addLog := g.addLog ++ [(u, v, w, rel)] }

def findEdge : List (List Char × List Char × EdgeData) → List Char → List Char → Option EdgeData
  | [], _, _ => none
  | (a, b, ed) :: rest, u, v => if a = u ∧ b = v then some ed else findEdge rest u v

def edgeData (g : Graph) (u v : List Char) : Option EdgeData :=
  findEdge g.edges u v

/-- `graph.successors u` in adjacency (edge-insertion) order. -/
def successors (g : Graph) (u : List Char) : List (List Char) :=
  g.edges.filterMap (fun e => if e.1 = u then some e.2.1 else none)

def refNodeKey (i : Nat) : List Char := "ref_".toList ++ natReprChars i

/-- The figure-node half of `_build_graph` (one loop iteration). -/
def add_figure_node (g : Graph) (figure : PyDict) : Except String Graph :=
  if (pyStrChars (pyGet figure "figure_id" (.vStr ""))).isEmpty then .ok g
  else
    match pyIntE (pyGet figure "page_idx" (.vInt 0)) with
    | .error e => .error e
    | .ok pidx =>
      .ok (addNodeFig g (pyStrChars (pyGet figure "figure_id" (.vStr "")))
            (get_figure_type figure) figure pidx
            (pyGet figure "bbox" (.vDict []))
            (pyStrChars (pyGet figure "text" (.vStr ""))))

def add_figure_nodes (g : Graph) : List PyDict → Except String Graph
  | [] => .ok g
  | f :: fs => do add_figure_nodes (← add_figure_node g f) fs

/-- The typed-ID matching loop run right after a reference node is added:
an edge of weight 0.9 to every node currently tagged `figure` whose type is
compatible and whose data passes `_is_id_match`. -/
def id_match_edges (rk : List Char) (rt : RefType) (rid : List Char) :
    Graph → List (List Char × NodeData) → Graph
  | g, [] => g
  | g, (fk, nd) :: rest =>
    if nd.ntype = "figure" ∧ is_type_compatible rt nd.fig_type ∧ is_id_match rid nd.data
    then id_match_edges rk rt rid (addEdge g rk fk (mkQ 9 10) "typed_id_match" none) rest
    else id_match_edges rk rt rid g rest

/-- The reference-node half of `_build_graph` (one loop iteration). -/
def add_reference_node (g : Graph) (i : Nat) (reference : PyDict) :
    Except String Graph :=
  match pyIntE (pyGet reference "page_idx" (.vInt 0)) with
  | .error e => .error e
  | .ok pidx =>
    let refText := pyStrChars (pyGet reference "text" (.vStr ""))
    let rt := (extract_typed_id_from_reference refText).1
    let g2 := addNodeRef g (refNodeKey i) rt (extract_typed_id_from_reference refText).2
      reference refText (pyGet reference "bbox" (.vDict [])) pidx
    match (extract_typed_id_from_reference refText).2 with
    | some l =>
      if !l.isEmpty ∧ rt ≠ .UNKNOWN then .ok (id_match_edges (refNodeKey i) rt l g2 g2.nodes)
      else .ok g2
    | none => .ok g2

def add_reference_nodes (g : Graph) (i : Nat) : List PyDict → Except String Graph
  | [] => .ok g
  | r :: rs => do add_reference_nodes (← add_reference_node g i r) (i + 1) rs

/-- The four `float(bbox.get(…))` conversions and the centre computation of
`_calculate_distance`; `none` models a caught `ValueError`/`TypeError`. -/
def centerOf (d : PyDict) : Option (Qv × Qv) :=
  match pyFloatE (pyGet d "x" (.vInt 0)), pyFloatE (pyGet d "width" (.vInt 0)),
        pyFloatE (pyGet d "y" (.vInt 0)), pyFloatE (pyGet d "height" (.vInt 0)) with
  | .ok x, .ok w, .ok y, .ok h => some (qAdd x (qDiv w (qI 2)), qAdd y (qDiv h (qI 2)))
  | _, _, _, _ => none

/-- `FigureMapper._calculate_distance`.  `ok none` is `float('inf')`
(falsy/unusable boxes); `ValueError`/`TypeError` from the float casts are
caught (→ inf), but `.get` on a truthy non-dict raises `AttributeError`,
which the `except` clause does not cover, hence the error case.  The first
box's floats are evaluated before the second box is touched. -/
def calculate_distance (b1 b2 : Val) : Except String (Option Qv) :=
  if !pyTruthy b1 || !pyTruthy b2 then .ok none
  else
    match asDict b1 with
    | none => .error "AttributeError"
    | some d1 =>
      match centerOf d1 with
      | none => .ok none
      | some (x1, y1) =>
        match asDict b2 with
        | none => .error "AttributeError"
        | some d2 =>
          match centerOf d2 with
          | none => .ok none
          | some (x2, y2) =>
            .ok (some (qSqrt (qAdd (qMul (qSub x2 x1) (qSub x2 x1))
                                   (qMul (qSub y2 y1) (qSub y2 y1)))))

/-- `FigureMapper._calculate_text_similarity` (Jaccard on whitespace-split
word sets). -/
def calculate_text_similarity (t1 t2 : List Char) : Qv :=
  if t1.isEmpty || t2.isEmpty then qI 0
  else
    let w1 := dedupL (splitWs t1)
    let w2 := dedupL (splitWs t2)
    if w1.isEmpty || w2.isEmpty then qI 0
    else
      let inter := (w1.filter (fun x => w2.contains x)).length
      let uni := (dedupL (w1 ++ w2)).length
      if uni = 0 then qI 0 else mkQ (Int.ofNat inter) (Int.ofNat uni)

/-- Inner loop of `_add_spatial_relationships` for one reference node.
(An uncaught exception from `_calculate_distance` aborts the whole loop,
hence the explicit error propagation.) -/
def spatial_edges_for (rk : List Char) (rd : NodeData) :
    Graph → List (List Char × NodeData) → Except String Graph
  | g, [] => .ok g
  | g, (fk, fd) :: rest =>
    if !is_type_compatible rd.ref_type fd.fig_type then spatial_edges_for rk rd g rest
    else if rd.page_idx = fd.page_idx then
      match calculate_distance rd.bbox fd.bbox with
      | .error e => .error e
      | .ok (some d) =>
        if qLtB d (qI 500) then
          spatial_edges_for rk rd
            (addEdge g rk fk (qMul (qMax0 (qSub (qI 1) (qDiv d (qI 500)))) (mkQ 4 10))
              "same_page_typed" (some d)) rest
        else spatial_edges_for rk rd g rest
      | .ok none => spatial_edges_for rk rd g rest
    else if (rd.page_idx - fd.page_idx).natAbs = 1 then
      if rd.page_idx > fd.page_idx then
        spatial_edges_for rk rd (addEdge g rk fk (mkQ 2 10) "next_page_typed" none) rest
      else spatial_edges_for rk rd g rest
    else spatial_edges_for rk rd g rest

def spatial_edges (figNodes : List (List Char × NodeData)) :
    Graph → List (List Char × NodeData) → Except String Graph
  | g, [] => .ok g
  | g, (rk, rd) :: rest =>
    match spatial_edges_for rk rd g figNodes with
    | .error e => .error e
    | .ok g2 => spatial_edges figNodes g2 rest

/-- `FigureMapper._add_spatial_relationships`.  The node lists (and the
attribute values consulted) are the state at entry; the loop itself only
adds edges, never nodes. -/
def add_spatial_relationships (g : Graph) : Except String Graph :=
  let refNodes := g.nodes.filter (fun n => n.2.ntype = "reference")
  let figNodes := g.nodes.filter (fun n => n.2.ntype = "figure")
  spatial_edges figNodes g refNodes

def semantic_edges_for (rk : List Char) (rd : NodeData) :
    Graph → List (List Char × NodeData) → Graph
  | g, [] => g
  | g, (fk, fd) :: rest =>
    if !is_type_compatible rd.ref_type fd.fig_type then semantic_edges_for rk rd g rest
    else if qLtB (mkQ 2 10) (calculate_text_similarity (lowerL rd.text) (lowerL fd.text)) then
      semantic_edges_for rk rd
        (addEdge g rk fk
          (qMul (calculate_text_similarity (lowerL rd.text) (lowerL fd.text)) (mkQ 3 10))
          "semantic_typed" none) rest
    else semantic_edges_for rk rd g rest

def semantic_edges (figNodes : List (List Char × NodeData)) :
    Graph → List (List Char × NodeData) → Graph
  | g, [] => g
  | g, (rk, rd) :: rest => semantic_edges figNodes (semantic_edges_for rk rd g figNodes) rest

/-- `FigureMapper._add_semantic_relationships`. -/
def add_semantic_relationships (g : Graph) : Graph :=
  let refNodes := g.nodes.filter (fun n => n.2.ntype = "reference")
  let figNodes := g.nodes.filter (fun n => n.2.ntype = "figure")
  semantic_edges figNodes g refNodes

/-- Stable insertion preserving descending weight order: an element is
placed after every earlier element of equal weight, which is exactly what
`list.sort(key=…, reverse=True)` (stable Timsort) produces. -/
def insDesc (x : List Char × Qv) : List (List Char × Qv) → List (List Char × Qv)
  | [] => [x]
  | y :: ys => if qLtB y.2 x.2 then x :: y :: ys else y :: insDesc x ys

def sortDescW (l : List (List Char × Qv)) : List (List Char × Qv) :=
  l.foldl (fun acc x => insDesc x acc) []

/-- The candidate list `connected_figures` for one reference node: its
successors that are (still) tagged `figure`, each with the weight stored on
the single `DiGraph` edge (`edge_data.get('weight', 0)`; the `float` cast
is the identity here since every stored weight is a `Qv`). -/
def connected_figures (g : Graph) (rk : List Char) : List (List Char × Qv) :=
  (successors g rk).filterMap (fun v =>
    match findNode g v with
    | some nd =>
      if nd.ntype = "figure" then
        some (v, match edgeData g rk v with | some ed => ed.weight | none => qI 0)
      else none
    | none => none)

/-- `FigureMapper._infer_relationships`: best candidate by stored weight,
accepted only above 0.3 (strict). -/
def infer_relationships (g : Graph) : List (List Char × List Char) :=
  (g.nodes.filter (fun n => n.2.ntype = "reference")).foldl (fun acc n =>
    let cands := connected_figures g n.1
    match sortDescW cands with
    | [] => acc
    | best :: _ => if qLtB (mkQ 3 10) best.2 then acc ++ [(n.1, best.1)] else acc) []

/-- `FigureMapper._create_unmapped_references`. -/
def create_unmapped_references (references : List PyDict) : List PyDict :=
  references.map (fun ref =>
    let refText := pyStrChars (pyGet ref "text" (.vStr ""))
    let rt := (extract_typed_id_from_reference refText).1
    [("text", Val.vStr (String.mk refText)),
     ("bbox", pyGet ref "bbox" (.vDict [])),
     ("not_matched", Val.vBool true),
     ("reference_type", Val.vStr rt.val)])

/-- `FigureMapper._build_graph`. -/
def build_graph (references figures : List PyDict) : Except String Graph := do
  let g1 ← add_figure_nodes emptyG figures
  let g2 ← add_reference_nodes g1 0 references
  let g3 ← add_spatial_relationships g2
  .ok (add_semantic_relationships g3)

/-- One output record of `map_references_to_figures` for reference `i`. -/
def mapped_reference (g : Graph) (mappings : List (List Char × List Char))
    (i : Nat) (reference : PyDict) : PyDict :=
  let base : PyDict :=
    [("text", Val.vStr (String.mk (pyStrChars (pyGet reference "text" (.vStr ""))))),
     ("bbox", pyGet reference "bbox" (.vDict []))]
  match alookup mappings (refNodeKey i) with
  | some figKey =>
    base ++ [("figure_id", Val.vStr (String.mk figKey)),
             ("not_matched", Val.vBool false),
             ("reference_type",
              Val.vStr ((findNode g (refNodeKey i)).getD defaultNode).ref_type.val)]
  | none => base ++ [("not_matched", Val.vBool true)]

def mapped_references (g : Graph) (mappings : List (List Char × List Char)) :
    Nat → List PyDict → List PyDict
  | _, [] => []
  | i, r :: rs => mapped_reference g mappings i r :: mapped_references g mappings (i + 1) rs

/-- `FigureMapper.map_references_to_figures`, additionally returning the
final resolution graph (the `self.graph` instance state) for inspection.
The empty-list short-circuit returns before any graph is built (the graph
was just cleared). -/
def mapRefsFull (references figures : List PyDict) :
    Except String (List PyDict × Graph) :=
  if references.isEmpty || figures.isEmpty then
    .ok (create_unmapped_references references, emptyG)
  else do
    let g ← build_graph references figures
    let mappings := infer_relationships g
    .ok (mapped_references g mappings 0 references, g)

/-- `FigureMapper.map_references_to_figures` (result list only). -/
def map_references_to_figures (references figures : List PyDict) :
    Except String (List PyDict) :=
  (mapRefsFull references figures).map (·.1)

/-! ## reference_extractor.py -/

/-- One pattern match found in a text fragment: character span plus the
`reference_type` of the pattern that produced it (`all_matches` entries;
the unused `prefix` tag of the source tuples is dropped). -/
structure MInfo where
  mstart : Nat
  mstop : Nat
  rtype : String
  deriving DecidableEq

/-- `\bKw\.?\s*\d+(?:\.\d+)*\b`. -/
def kwNumB (kw : List Char) : RE :=
  reSeqs [.wb, litCI kw, .opt (chC '.'), .star wsC, reNum, .wb]

/-- `\bKw\.?\s*\(\d+(?:\.\d+)*\)`. -/
def kwParenNumB (kw : List Char) : RE :=
  reSeqs [.wb, litCI kw, .opt (chC '.'), .star wsC, parens reNum]

/-- `$` as a negative lookahead over every character. -/
def reEOL : RE := .nla (fun _ => true)

/-- `(?<!\w)\(\d+(?:\.\d+)*\)(?=\s|$|[,.])` — the extractor's bare
parenthesised number. -/
def bareParenEx : RE :=
  reSeqs [.nlb isWordChar, parens reNum,
          .la (.alt wsC (.alt reEOL (.cls (fun c => c == ',' || c == '.'))))]

/-- `(?:and|&|-|,)`. -/
def reConn : RE :=
  .alt (litCI "and".toList) (.alt (chC '&') (.alt (chC '-') (chC ',')))

/-- `\bKws?\.?\s*\d+(?:\.\d+)*(?:\s*(?:and|&|-|,)\s*\d+(?:\.\d+)*)*\b`. -/
def combinedKw (kw : List Char) : RE :=
  reSeqs [.wb, litCI kw, .opt (litCI ['s']), .opt (chC '.'), .star wsC, reNum,
          .star (reSeqs [.star wsC, reConn, .star wsC, reNum]), .wb]

/-- `ReferenceExtractor.all_patterns`: the typed pattern table flattened in
dict/list insertion order, tagged with each pattern's `reference_type`. -/
def all_patterns : List (RE × String) :=
  [ (kwNumB "fig".toList, "figure"),
    (kwNumB "figure".toList, "figure"),
    (kwNumB "fig".toList, "figure"),
    (kwNumB "그림".toList, "figure"),
    (kwNumB "table".toList, "table"),
    (kwNumB "tab".toList, "table"),
    (kwNumB "표".toList, "table"),
    (kwParenNumB "eq".toList, "equation"),
    (kwParenNumB "equation".toList, "equation"),
    (kwNumB "eq".toList, "equation"),
    (kwNumB "equation".toList, "equation"),
    (bareParenEx, "equation"),
    (kwParenNumB "식".toList, "equation"),
    (kwNumB "수식".toList, "equation"),
    (kwNumB "example".toList, "example"),
    (kwNumB "ex".toList, "example"),
    (kwNumB "예제".toList, "example"),
    (kwNumB "예".toList, "example"),
    (kwNumB "algorithm".toList, "algorithm"),
    (kwNumB "alg".toList, "algorithm"),
    (kwNumB "알고리즘".toList, "algorithm"),
    (combinedKw "fig".toList, "combined"),
    (combinedKw "table".toList, "combined") ]

/-- `all_matches`: every match of every pattern, in pattern-table order
(the source's `Fig`, `FIG` and `Figure` literals coincide under
`IGNORECASE`, so `Fig`'s transcription appears twice). -/
def ref_matches (tl : List Char) : List MInfo :=
  all_patterns.foldl (fun acc pt =>
    acc ++ (findIter tl pt.1).map (fun m => ⟨m.1, m.2, pt.2⟩)) []

/-- Stable insertion by ascending `mstart` (ties keep earlier elements
first), so the fold below reproduces
`all_matches.sort(key=lambda x: x['match'].start())`. -/
def insByStart (x : MInfo) : List MInfo → List MInfo
  | [] => [x]
  | y :: ys => if x.mstart < y.mstart then x :: y :: ys else y :: insByStart x ys

def sortByStart (l : List MInfo) : List MInfo :=
  l.foldl (fun acc x => insByStart x acc) []

/-- The overlap-removal scan (`last_end` starts at `-1`; a match is kept
iff it starts at or after the previous kept match's end). -/
def selectMatches (lastEnd : Int) : List MInfo → List MInfo
  | [] => []
  | m :: rest =>
    if (m.mstart : Int) ≥ lastEnd then m :: selectMatches (m.mstop : Int) rest
    else selectMatches lastEnd rest

def default4 : PyDict :=
  [("x", .vInt 0), ("y", .vInt 0), ("width", .vInt 0), ("height", .vInt 0)]

def pyIntD (v : Val) : Int :=
  match pyIntE v with
  | .ok n => n
  | .error _ => 0

/-- `ReferenceExtractor._estimate_ref_bbox`. -/
def estimate_ref_bbox (textBbox : Val) (fullText : List Char)
    (startPos endPos : Nat) : PyDict :=
  if !pyTruthy textBbox || (asDict textBbox).isNone || fullText.isEmpty then default4
  else
    match asDict textBbox with
    | none => default4
    | some d =>
      match pyIntE (pyGet d "x" (.vInt 0)), pyIntE (pyGet d "y" (.vInt 0)),
            pyIntE (pyGet d "width" (.vInt 0)), pyIntE (pyGet d "height" (.vInt 0)) with
      | .ok tx, .ok ty, .ok tw, .ok th =>
        if fullText.length = 0 then
          [("x", .vInt tx), ("y", .vInt ty), ("width", .vInt tw), ("height", .vInt th)]
        else
          let cw := mkQ tw (Int.ofNat fullText.length)
          let rx := tx + qTrunc (qMul (qI (Int.ofNat startPos)) cw)
          let rw := qTrunc (qMul (qI (Int.ofNat (endPos - startPos))) cw)
          [("x", .vInt (max 0 rx)), ("y", .vInt ty),
           ("width", .vInt (max 1 rw)), ("height", .vInt th)]
      | _, _, _, _ => default4

/-- The references produced from one text fragment. -/
def block_references (textStr : List Char) (bbox2 : Val) (pageIdx : Option Int) :
    List PyDict :=
  (selectMatches (-1) (sortByStart (ref_matches textStr))).map (fun m =>
    [("text", Val.vStr (String.mk (sliceL textStr m.mstart m.mstop))),
     ("bbox", Val.vDict (estimate_ref_bbox bbox2 textStr m.mstart m.mstop)),
     ("reference_type", Val.vStr m.rtype)] ++
    (match pageIdx with
     | some p => [("page_idx", Val.vInt p)]
     | none => []))

/-- `ReferenceExtractor.extract_references` (when called from the analyze
pipeline, `page_idx` is left at its `None` default, so no `page_idx` key is
emitted). -/
def extract_references (text_blocks : List Val) (pageIdx : Option Int) : List PyDict :=
  match text_blocks with
  | [] => []
  | b :: rest =>
    match asDict b with
    | none => extract_references rest pageIdx
    | some block =>
      let text := pyGet block "text" (.vStr "")
      let textStr := match text with | .vNone => [] | v => pyStrChars v
      if textStr.isEmpty then extract_references rest pageIdx
      else
        let bbox := pyGet block "bbox" (.vDict [])
        let bbox2 := if (asDict bbox).isNone then Val.vDict default4 else bbox
        block_references textStr bbox2 pageIdx ++ extract_references rest pageIdx

/-! ## figure_id_generator.py -/

/-- `FigureIDGenerator.typed_id_patterns`, flattened in dict/list insertion
order and tagged with each pattern's mapped reference type. -/
def gen_id_patterns : List (RE × String) :=
  [ (kwDotNumGrp "fig".toList "ure".toList, "figure"),
    (kwDotNumGrp "그림".toList [], "figure"),
    (kwDotNumGrp "tab".toList "le".toList, "table"),
    (kwDotNumGrp "표".toList [], "table"),
    (kwDotParenNumGrp "eq".toList "uation".toList, "equation"),
    (kwDotNumGrp "eq".toList "uation".toList, "equation"),
    (kwDotParenNumGrp "식".toList [], "equation"),
    (kwDotNumGrp "수식".toList [], "equation"),
    (kwDotNumGrp "formula".toList [], "equation"),
    (parens (.grp reNum), "equation"),
    (kwDotNumGrp "ex".toList "ample".toList, "example"),
    (kwDotNumGrp "예제".toList [], "example"),
    (kwDotNumGrp "alg".toList "orithm".toList, "algorithm"),
    (kwDotNumGrp "알고리즘".toList [], "algorithm"),
    (kwDotNumGrp "chart".toList [], "figure"),
    (kwDotNumGrp "graph".toList [], "figure"),
    (kwDotNumGrp "diagram".toList [], "figure"),
    (kwDotNumGrp "image".toList [], "figure"),
    (kwDotNumGrp "picture".toList [], "figure") ]

/-- `FigureIDGenerator._extract_typed_figure_id`. -/
def extract_typed_figure_id (text : List Char) :
    Option (List Char) × Option String :=
  if text.isEmpty then (none, none)
  else
    match firstPatternMatch text (gen_id_patterns.map (fun pt => (pt.2, pt.1))) with
    | some (t, g1) => (some g1, some t)
    | none => (none, none)

def layout_type_mapping : List (String × String) :=
  [("figure", "figure"), ("figure_title", "figure"), ("figure_caption", "figure"),
   ("image", "figure"), ("table", "table"), ("table_caption", "table"),
   ("formula", "equation"), ("number", "equation"), ("algorithm", "algorithm"),
   ("chart", "figure"), ("graph", "figure"), ("diagram", "figure")]

/-- `FigureIDGenerator._determine_reference_type`. -/
def determine_reference_type (layoutType text : List Char) : String :=
  match alookup layout_type_mapping (String.mk (lowerL layoutType)) with
  | some t => t
  | none =>
    let tl := lowerL text
    if anySub ["fig", "figure", "그림"] tl then "figure"
    else if anySub ["table", "tab", "표"] tl then "table"
    else if anySub ["eq", "equation", "formula", "식", "수식"] tl then "equation"
    else if anySub ["example", "ex.", "예제"] tl then "example"
    else if anySub ["algorithm", "alg", "알고리즘"] tl then "algorithm"
    else "figure"

/-- The `type_prefix` lookup inside `_generate_fallback_id`. -/
def typePfx (rt : String) : List Char :=
  if rt = "figure" then "fig".toList
  else if rt = "table" then "tab".toList
  else if rt = "equation" then "eq".toList
  else if rt = "example" then "ex".toList
  else if rt = "algorithm" then "alg".toList
  else "unk".toList

/-- `FigureIDGenerator._generate_fallback_id`:
`f"{type_prefix}_{page_num}_{y_position}"`.  A failing `int(bbox['y'])`
would zero both numbers (the shared `except` arm); `page_idx` reaches this
point already as an int. -/
def generate_fallback_id (refType : String) (pageIdx : Int) (bbox : PyDict) :
    List Char :=
  let yp : Int × Int :=
    match pyIntE (pyGet bbox "y" (.vInt 0)) with
    | .ok yv => (yv, pageIdx)
    | .error _ => (0, 0)
  typePfx refType ++ '_' :: intReprChars yp.2 ++ '_' :: intReprChars yp.1

/-- The `safe_bbox` coercion at the top of `generate_figure_info`. -/
def safeBbox (bbox : Val) : PyDict :=
  let bd := match asDict bbox with | some d => d | none => default4
  [("x", Val.vInt (pyIntD (pyGet bd "x" (.vInt 0)))),
   ("y", Val.vInt (pyIntD (pyGet bd "y" (.vInt 0)))),
   ("width", Val.vInt (pyIntD (pyGet bd "width" (.vInt 0)))),
   ("height", Val.vInt (pyIntD (pyGet bd "height" (.vInt 0))))]

/-- `FigureIDGenerator.generate_figure_info`. -/
def generate_figure_info (block : PyDict) (pageIdx : Int) : PyDict :=
  let layoutType := pyStrChars (pyGet block "type" (.vStr "figure"))
  let text := trimWs (pyStrChars (pyGet block "text" (.vStr "")))
  let sb := safeBbox (pyGet block "bbox" (.vDict []))
  let rt0 := determine_reference_type layoutType text
  let ex := extract_typed_figure_id text
  let rt := match ex.2 with
    | some t => if t ≠ "" then t else rt0
    | none => rt0
  let fid := match ex.1 with
    | some l => if l.isEmpty then generate_fallback_id rt pageIdx sb else l
    | none => generate_fallback_id rt pageIdx sb
  let conf := match pyFloatE (pyGet block "confidence" (.vQ (qI 0))) with
    | .ok q => q
    | .error _ => qI 0
  [("figure_id", .vStr (String.mk fid)), ("type", .vStr (String.mk layoutType)),
   ("reference_type", .vStr rt), ("bbox", .vDict sb), ("page_idx", .vInt pageIdx),
   ("text", .vStr (String.mk text)), ("confidence", .vQ conf)]

/-! ## figure_grouper.py — the `BoundingBox` dataclass -/

/-- The `@dataclass BoundingBox`: a plain record, the constructor stores
the four integers exactly as given. -/
structure BoundingBox where
  x : Int
  y : Int
  width : Int
  height : Int
  deriving DecidableEq

def BoundingBox.x2 (b : BoundingBox) : Int := b.x + b.width

def BoundingBox.y2 (b : BoundingBox) : Int := b.y + b.height

/-- `center_x` uses Python floor division `//`. -/
def BoundingBox.center_x (b : BoundingBox) : Int := b.x + Int.fdiv b.width 2

def BoundingBox.center_y (b : BoundingBox) : Int := b.y + Int.fdiv b.height 2

def BoundingBox.area (b : BoundingBox) : Int := b.width * b.height

/-! ## analyze.py — `_process_pdf` page loop -/

/-- A page as handed to the loop by the PDF processor, with the external
layout/OCR detector's output for it (`detect_layout_and_text` is an
external ML collaborator; its per-page result is part of the input). -/
structure PageIn where
  index : Int
  image_path : Val
  text_blocks : List Val
  layout_blocks : List PyDict

structure PageOut where
  index : Int
  references : Option (List PyDict)

/-- The per-page loop of `AnalyzeAPI._process_pdf`: pages with a falsy
`image_path` are skipped (their `references` never set); otherwise the
page's layout blocks are turned into figures and appended to the running
document-wide `all_figures`, the page's references are extracted
(`page_idx` argument left at `None`), and the mapper is called with this
page's references against the figures accumulated so far. -/
def process_pages (allFigs : List PyDict) :
    List PageIn → Except String (List PageOut × List PyDict)
  | [] => .ok ([], allFigs)
  | p :: rest =>
    if !pyTruthy p.image_path then do
      let r ← process_pages allFigs rest
      .ok (⟨p.index, none⟩ :: r.1, r.2)
    else do
      let figs2 := allFigs ++ p.layout_blocks.map (fun b => generate_figure_info b p.index)
      let refs := extract_references p.text_blocks none
      let mapped ← map_references_to_figures refs figs2
      let r ← process_pages figs2 rest
      .ok (⟨p.index, some mapped⟩ :: r.1, r.2)

/-- `AnalyzeAPI._process_pdf` (figure/reference part): all pages processed
in order, returning the annotated pages and the document-wide figure
list. -/
def process_pdf (pages : List PageIn) : Except String (List PageOut × List PyDict) :=
  process_pages [] pages

/-! ## Derived result accessors used by the claim statements -/

/-- Output list of `map_references_to_figures` (empty on a raised
exception). -/
def mapOut (references figures : List PyDict) : List PyDict :=
  ((map_references_to_figures references figures).toOption).getD []

/-- Final `self.graph` state of a mapping call (empty on a raised
exception). -/
def mapGraph (references figures : List PyDict) : Graph :=
  (((mapRefsFull references figures).toOption).map (·.2)).getD emptyG

/-- The full `add_edge` call log of a mapping call. -/
def mapLog (references figures : List PyDict) :
    List (List Char × List Char × Qv × String) :=
  (mapGraph references figures).addLog

/-- The `add_edge` calls issued between one ordered node pair, in order. -/
def pairLog (L : List (List Char × List Char × Qv × String)) (u v : List Char) :
    List (List Char × List Char × Qv × String) :=
  L.filter (fun e => decide (e.1 = u ∧ e.2.1 = v))

/-! ## Decimal rendering: injectivity (for the fallback-ID claims) -/

theorem parseDigitsAcc_append (xs ys : List Char) (a : Nat) :
    parseDigitsAcc (xs ++ ys) a = parseDigitsAcc ys (parseDigitsAcc xs a) := by
  induction xs generalizing a with
  | nil => rfl
  | cons c cs ih => simp [parseDigitsAcc, ih]

theorem digitVal_digitCh (d : Nat) (h : d < 10) : digitVal (digitCh d) = d := by
  interval_cases d <;> rfl

theorem isDigitCh_digitCh (d : Nat) : isDigitCh (digitCh d) = true := by
  rcases d with _ | _ | _ | _ | _ | _ | _ | _ | _ | d <;> rfl

theorem natReprAux_parse (f : Nat) : ∀ n, n < 10 ^ f → parseDigitsAcc (natReprAux f n) 0 = n := by
  induction f with
  | zero => intro n h; interval_cases n; rfl
  | succ f ih =>
    intro n h
    by_cases h10 : n < 10
    · simp [natReprAux, h10, parseDigitsAcc, digitVal_digitCh n h10]
    · have hdiv : n / 10 < 10 ^ f := by
        rw [Nat.div_lt_iff_lt_mul (by norm_num)]
        calc n < 10 ^ (f + 1) := h
        _ = 10 ^ f * 10 := by ring
      simp only [natReprAux, h10, if_false, parseDigitsAcc_append]
      rw [ih (n / 10) hdiv]
      simp [parseDigitsAcc, digitVal_digitCh (n % 10) (Nat.mod_lt n (by norm_num))]
      omega

theorem natReprChars_parse (n : Nat) : parseDigitsAcc (natReprChars n) 0 = n := by
  have h : n < 10 ^ (n + 1) := by
    calc n < 2 ^ n := Nat.lt_two_pow n
    _ ≤ 10 ^ n := Nat.pow_le_pow_left (by norm_num) n
    _ ≤ 10 ^ (n + 1) := Nat.pow_le_pow_right (by norm_num) (Nat.le_succ n)
  exact natReprAux_parse (n + 1) n h

theorem natReprChars_inj {m n : Nat} (h : natReprChars m = natReprChars n) : m = n := by
  have := natReprChars_parse m
  rw [h, natReprChars_parse] at this
  omega

theorem natReprAux_head (f : Nat) :
    ∀ n, ∃ c cs, natReprAux (f + 1) n = c :: cs ∧ isDigitCh c = true := by
  induction f with
  | zero =>
    intro n
    by_cases h10 : n < 10
    · exact ⟨digitCh n, [], by simp [natReprAux, h10], isDigitCh_digitCh n⟩
    · exact ⟨digitCh (n % 10), [], by simp [natReprAux, h10], isDigitCh_digitCh _⟩
  | succ f ih =>
    intro n
    by_cases h10 : n < 10
    · exact ⟨digitCh n, [], by simp [natReprAux, h10], isDigitCh_digitCh n⟩
    · obtain ⟨c, cs, hc, hd⟩ := ih (n / 10)
      refine ⟨c, cs ++ [digitCh (n % 10)], ?_, hd⟩
      rw [show c :: (cs ++ [digitCh (n % 10)]) = (c :: cs) ++ [digitCh (n % 10)] from rfl, ← hc]
      simp only [natReprAux, h10, if_false]

theorem natReprChars_head (n : Nat) :
    ∃ c cs, natReprChars n = c :: cs ∧ isDigitCh c = true :=
  natReprAux_head n n

theorem intReprChars_inj {m n : Int} (h : intReprChars m = intReprChars n) : m = n := by
  unfold intReprChars at h
  split_ifs at h with hm hn hn
  · have h2 : natReprChars (-m).toNat = natReprChars (-n).toNat := by
      simpa using h
    have := natReprChars_inj h2
    omega
  · obtain ⟨c, cs, hc, hd⟩ := natReprChars_head n.toNat
    rw [hc] at h
    have hcc : '-' = c := (List.cons.injEq _ _ _ _ ▸ h).1
    rw [← hcc] at hd
    exact absurd hd (by decide)
  · obtain ⟨c, cs, hc, hd⟩ := natReprChars_head m.toNat
    rw [hc] at h
    have hcc : c = '-' := (List.cons.injEq _ _ _ _ ▸ h).1
    rw [hcc] at hd
    exact absurd hd (by decide)
  · have := natReprChars_inj h
    omega

/-! ## Fallback-ID structure lemmas (claim C8) -/

/-- The `y` that `_generate_fallback_id` reads back out of the safe bbox. -/
def safeY (bbox : Val) : Int :=
  pyIntD (pyGet (match asDict bbox with | some d => d | none => default4) "y" (.vInt 0))

def fallbackStr (rt : String) (page y : Int) : List Char :=
  typePfx rt ++ '_' :: intReprChars page ++ '_' :: intReprChars y

theorem generate_fallback_id_safeBbox (rt : String) (page : Int) (bbox : Val) :
    generate_fallback_id rt page (safeBbox bbox) = fallbackStr rt page (safeY bbox) := rfl

theorem underscore_not_mem_typePfx (t : String) : '_' ∉ typePfx t := by
  unfold typePfx
  split_ifs <;> decide

theorem noUnderscore_append_eq :
    ∀ (P1 P2 X Y : List Char), '_' ∉ P1 → '_' ∉ P2 →
      P1 ++ '_' :: X = P2 ++ '_' :: Y → P1 = P2 ∧ X = Y := by
  intro P1
  induction P1 with
  | nil =>
    intro P2 X Y _ h2 h
    cases P2 with
    | nil => simpa using h
    | cons d ds =>
      exfalso
      have hd : '_' = d := by simpa using congrArg (fun l => l.head?) h
      exact h2 (hd ▸ List.mem_cons_self d ds)
  | cons c cs ih =>
    intro P2 X Y h1 h2 h
    cases P2 with
    | nil =>
      exfalso
      have hc : c = '_' := by simpa using congrArg (fun l => l.head?) h
      exact h1 (hc ▸ List.mem_cons_self c cs)
    | cons d ds =>
      have hcd : c = d := by simpa using congrArg (fun l => l.head?) h
      subst hcd
      have htl : cs ++ '_' :: X = ds ++ '_' :: Y := by simpa using h
      obtain ⟨hp, hxy⟩ := ih ds X Y (fun hm => h1 (List.mem_cons_of_mem c hm))
        (fun hm => h2 (List.mem_cons_of_mem c hm)) htl
      exact ⟨by rw [hp], hxy⟩

def fiveRefTypes : List String := ["figure", "table", "equation", "example", "algorithm"]

theorem typePfx_inj_on_five {t1 t2 : String} (h1 : t1 ∈ fiveRefTypes)
    (h2 : t2 ∈ fiveRefTypes) (h : typePfx t1 = typePfx t2) : t1 = t2 := by
  fin_cases h1 <;> fin_cases h2 <;> first | rfl | (exact absurd h (by decide))

theorem allDigits_natReprAux (f : Nat) : ∀ n, allDigits (natReprAux f n) = true := by
  induction f with
  | zero => intro n; rfl
  | succ f ih =>
    intro n
    by_cases h10 : n < 10
    · simp [natReprAux, h10, allDigits, isDigitCh_digitCh]
    · simp only [natReprAux, h10, if_false, allDigits, List.all_append, List.all_cons,
        List.all_nil, Bool.and_true, Bool.and_eq_true]
      exact ⟨List.all_eq_true.mp (ih (n / 10)) |> fun h => List.all_eq_true.mpr h,
             isDigitCh_digitCh _⟩

theorem not_underscore_of_allDigits {l : List Char} (h : allDigits l = true) : '_' ∉ l :=
  fun hm => absurd (List.all_eq_true.mp h _ hm) (by decide)

theorem underscore_not_mem_intReprChars (n : Int) : '_' ∉ intReprChars n := by
  unfold intReprChars
  split_ifs
  · intro hm
    rcases List.mem_cons.mp hm with hc | hc
    · exact absurd hc (by decide)
    · exact not_underscore_of_allDigits (allDigits_natReprAux _ _) hc
  · exact not_underscore_of_allDigits (allDigits_natReprAux _ _)

theorem fallbackStr_inj_on_five {t1 t2 : String} {p y1 y2 : Int}
    (h1 : t1 ∈ fiveRefTypes) (h2 : t2 ∈ fiveRefTypes)
    (h : fallbackStr t1 p y1 = fallbackStr t2 p y2) : t1 = t2 ∧ y1 = y2 := by
  unfold fallbackStr at h
  rw [List.append_assoc, List.append_assoc, List.cons_append, List.cons_append] at h
  obtain ⟨hpfx, hrest⟩ := noUnderscore_append_eq _ _ _ _
    (underscore_not_mem_typePfx t1) (underscore_not_mem_typePfx t2) h
  refine ⟨typePfx_inj_on_five h1 h2 hpfx, ?_⟩
  have hy := List.append_cancel_left hrest
  have hy2 : intReprChars y1 = intReprChars y2 := by simpa using hy
  exact intReprChars_inj hy2

theorem alookup_mem_values {α β : Type} [DecidableEq α] :
    ∀ (l : List (α × β)) (k : α) (v : β), alookup l k = some v → v ∈ l.map Prod.snd := by
  intro l
  induction l with
  | nil => intro k v h; simp [alookup] at h
  | cons kv rest ih =>
    intro k v h
    rw [show alookup (kv :: rest) k = if kv.1 = k then some kv.2 else alookup rest k from rfl] at h
    split_ifs at h with he
    · simp at h
      simp [h]
    · exact List.mem_cons_of_mem _ (ih k v h)

theorem determine_reference_type_mem (lt tx : List Char) :
    determine_reference_type lt tx ∈ fiveRefTypes := by
  unfold determine_reference_type
  cases halk : alookup layout_type_mapping (String.mk (lowerL lt)) with
  | some v =>
    have hv := alookup_mem_values _ _ _ halk
    have hall : ∀ x ∈ layout_type_mapping.map Prod.snd, x ∈ fiveRefTypes := by decide
    exact hall v hv
  | none =>
    dsimp only
    split_ifs <;> decide

/-! ## Overlap-selection lemmas (claim C7) -/

theorem selectMatches_start_ge (e : Int) :
    ∀ l : List MInfo, (∀ m ∈ l, m.mstart ≤ m.mstop) →
      ∀ m ∈ selectMatches e l, e ≤ (m.mstart : Int) := by
  intro l
  induction l generalizing e with
  | nil => intro _ m hm; simp [selectMatches] at hm
  | cons x rest ih =>
    intro hw m hm
    rw [selectMatches] at hm
    split_ifs at hm with hx
    · rcases List.mem_cons.mp hm with rfl | hm2
      · omega
      · have hge := ih x.mstop (fun m hm => hw m (List.mem_cons_of_mem _ hm)) m hm2
        have hxw : x.mstart ≤ x.mstop := hw x (List.mem_cons_self _ _)
        have hxw2 : (x.mstart : Int) ≤ (x.mstop : Int) := by exact_mod_cast hxw
        omega
    · exact ih e (fun m hm => hw m (List.mem_cons_of_mem _ hm)) m hm

theorem selectMatches_subset (e : Int) :
    ∀ l : List MInfo, ∀ m ∈ selectMatches e l, m ∈ l := by
  intro l
  induction l generalizing e with
  | nil => intro m hm; simp [selectMatches] at hm
  | cons x rest ih =>
    intro m hm
    rw [selectMatches] at hm
    split_ifs at hm with hx
    · rcases List.mem_cons.mp hm with rfl | hm2
      · exact List.mem_cons_self _ _
      · exact List.mem_cons_of_mem _ (ih x.mstop m hm2)
    · exact List.mem_cons_of_mem _ (ih e m hm)

/-- The kept matches are pairwise non-overlapping, and (when every candidate
match has positive width) their start offsets strictly increase. -/
theorem selectMatches_pairwise (e : Int) :
    ∀ l : List MInfo, (∀ m ∈ l, m.mstart < m.mstop) →
      (selectMatches e l).Pairwise (fun a b => a.mstop ≤ b.mstart ∧ a.mstart < b.mstart) := by
  intro l
  induction l generalizing e with
  | nil => intro _; simp [selectMatches]
  | cons x rest ih =>
    intro hw
    rw [selectMatches]
    split_ifs with hx
    · refine List.Pairwise.cons ?_ (ih x.mstop (fun m hm => hw m (List.mem_cons_of_mem _ hm)))
      intro b hb
      have hge := selectMatches_start_ge x.mstop rest
        (fun m hm => Nat.le_of_lt (hw m (List.mem_cons_of_mem _ hm))) b hb
      have hxw := hw x (List.mem_cons_self _ _)
      constructor
      · exact_mod_cast hge
      · have : (x.mstart : Int) < x.mstop := by exact_mod_cast hxw
        omega
    · exact ih e (fun m hm => hw m (List.mem_cons_of_mem _ hm))

theorem insByStart_mem (x : MInfo) :
    ∀ l : List MInfo, ∀ m ∈ insByStart x l, m = x ∨ m ∈ l := by
  intro l
  induction l with
  | nil => intro m hm; simpa [insByStart] using hm
  | cons y ys ih =>
    intro m hm
    rw [insByStart] at hm
    split_ifs at hm with hcmp
    · rcases List.mem_cons.mp hm with rfl | hm2
      · exact Or.inl rfl
      · exact Or.inr hm2
    · rcases List.mem_cons.mp hm with rfl | hm2
      · exact Or.inr (List.mem_cons_self _ _)
      · rcases ih m hm2 with h | h
        · exact Or.inl h
        · exact Or.inr (List.mem_cons_of_mem _ h)

theorem sortByStart_mem (l : List MInfo) : ∀ m ∈ sortByStart l, m ∈ l := by
  have gen : ∀ (acc : List MInfo), (∀ m ∈ acc, m ∈ l) → False ∨ True := fun _ _ => Or.inr trivial
  -- fold invariant: every element of the accumulator came from the input
  suffices h : ∀ (xs acc : List MInfo),
      (∀ m ∈ acc, m ∈ l) → (∀ m ∈ xs, m ∈ l) →
      ∀ m ∈ xs.foldl (fun a x => insByStart x a) acc, m ∈ l by
    intro m hm
    exact h l [] (by simp) (fun m hm => hm) m hm
  intro xs
  induction xs with
  | nil => intro acc hacc _ m hm; exact hacc m hm
  | cons x rest ih =>
    intro acc hacc hxs m hm
    simp only [List.foldl_cons] at hm
    refine ih (insByStart x acc) ?_ (fun m hm => hxs m (List.mem_cons_of_mem _ hm)) m hm
    intro m hm2
    rcases insByStart_mem x acc m hm2 with rfl | h
    · exact hxs m (List.mem_cons_self _ _)
    · exact hacc m h


/-! ## Graph construction as a transition system

`_build_graph` touches its graph only through `addNodeFig`, `addNodeRef`
and `addEdge`; the relation below records those calls together with the
facts the claims need about their arguments (figure keys come from input
figures and are nonempty; every `typed_id_match` edge carries weight 0.9;
every node bbox written comes from an input record's `bbox` field). -/

inductive BuildOp (references figures : List PyDict) : Graph → Graph → Prop where
  | fig (g : Graph) (f : PyDict) (pidx : Int) (hf : f ∈ figures)
      (hne : pyStrChars (pyGet f "figure_id" (.vStr "")) ≠ []) :
      BuildOp references figures g
        (addNodeFig g (pyStrChars (pyGet f "figure_id" (.vStr "")))
          (get_figure_type f) f pidx (pyGet f "bbox" (.vDict []))
          (pyStrChars (pyGet f "text" (.vStr ""))))
  | ref (g : Graph) (r : PyDict) (i : Nat) (rt : RefType) (rid : Option (List Char))
      (pidx : Int) (hr : r ∈ references) :
      BuildOp references figures g
        (addNodeRef g (refNodeKey i) rt rid r
          (pyStrChars (pyGet r "text" (.vStr ""))) (pyGet r "bbox" (.vDict [])) pidx)
  | edge (g : Graph) (u v : List Char) (w : Qv) (rel : String) (d : Option Qv)
      (hw : rel = "typed_id_match" → w = mkQ 9 10) :
      BuildOp references figures g (addEdge g u v w rel d)

abbrev BuildReach (references figures : List PyDict) : Graph → Graph → Prop :=
  Relation.ReflTransGen (BuildOp references figures)

theorem bind_ok {α β : Type} {x : Except String α} {f : α → Except String β} {b : β}
    (h : x.bind f = .ok b) : ∃ a, x = .ok a ∧ f a = .ok b := by
  cases x with
  | ok a => exact ⟨a, rfl, h⟩
  | error e => simp [Except.bind] at h

theorem reach_add_figure_node {refs figs : List PyDict} {g g' : Graph} {f : PyDict}
    (hf : f ∈ figs) (h : add_figure_node g f = .ok g') : BuildReach refs figs g g' := by
  unfold add_figure_node at h
  split_ifs at h with hemp
  · simp at h
    exact h ▸ Relation.ReflTransGen.refl
  · cases hip : pyIntE (pyGet f "page_idx" (.vInt 0)) with
    | error e => rw [hip] at h; exact absurd h (by simp)
    | ok pidx =>
      rw [hip] at h
      simp at h
      rw [← h]
      exact Relation.ReflTransGen.single
        (BuildOp.fig g f pidx hf (fun hn => hemp (by rw [hn]; rfl)))

theorem reach_add_figure_nodes {refs figs : List PyDict} :
    ∀ (fs : List PyDict) (g g' : Graph), (∀ f ∈ fs, f ∈ figs) →
      add_figure_nodes g fs = .ok g' → BuildReach refs figs g g' := by
  intro fs
  induction fs with
  | nil => intro g g' _ h; simp [add_figure_nodes] at h; exact h ▸ Relation.ReflTransGen.refl
  | cons f rest ih =>
    intro g g' hsub h
    rw [add_figure_nodes] at h
    obtain ⟨g1, h1, h2⟩ := bind_ok h
    exact Relation.ReflTransGen.trans
      (reach_add_figure_node (hsub f (List.mem_cons_self _ _)) h1)
      (ih g1 g' (fun f hf => hsub f (List.mem_cons_of_mem _ hf)) h2)

theorem reach_id_match_edges {refs figs : List PyDict} (rk : List Char) (rt : RefType)
    (rid : List Char) :
    ∀ (ns : List (List Char × NodeData)) (g : Graph),
      BuildReach refs figs g (id_match_edges rk rt rid g ns) := by
  intro ns
  induction ns with
  | nil => intro g; exact Relation.ReflTransGen.refl
  | cons kv rest ih =>
    intro g
    rw [id_match_edges]
    split_ifs with hc
    · exact Relation.ReflTransGen.trans
        (Relation.ReflTransGen.single
          (BuildOp.edge g rk kv.1 (mkQ 9 10) "typed_id_match" none (fun _ => rfl)))
        (ih _)
    · exact ih g

theorem reach_add_reference_node {refs figs : List PyDict} {g g' : Graph} {r : PyDict}
    {i : Nat} (hr : r ∈ refs) (h : add_reference_node g i r = .ok g') :
    BuildReach refs figs g g' := by
  unfold add_reference_node at h
  cases hip : pyIntE (pyGet r "page_idx" (.vInt 0)) with
  | error e => rw [hip] at h; exact absurd h (by simp)
  | ok pidx =>
    rw [hip] at h
    dsimp only at h
    cases hX : (extract_typed_id_from_reference (pyStrChars (pyGet r "text" (.vStr "")))).2 with
    | none =>
      rw [hX] at h
      dsimp only at h
      simp at h
      exact h ▸ Relation.ReflTransGen.single (BuildOp.ref g r i _ none pidx hr)
    | some l =>
      rw [hX] at h
      dsimp only at h
      split_ifs at h with hc
      · simp at h
        rw [← h]
        exact Relation.ReflTransGen.trans
          (Relation.ReflTransGen.single (BuildOp.ref g r i _ (some l) pidx hr))
          (reach_id_match_edges _ _ _ _ _)
      · simp at h
        exact h ▸ Relation.ReflTransGen.single (BuildOp.ref g r i _ (some l) pidx hr)

theorem reach_add_reference_nodes {refs figs : List PyDict} :
    ∀ (rs : List PyDict) (i : Nat) (g g' : Graph), (∀ r ∈ rs, r ∈ refs) →
      add_reference_nodes g i rs = .ok g' → BuildReach refs figs g g' := by
  intro rs
  induction rs with
  | nil =>
    intro i g g' _ h
    simp [add_reference_nodes] at h
    exact h ▸ Relation.ReflTransGen.refl
  | cons r rest ih =>
    intro i g g' hsub h
    rw [add_reference_nodes] at h
    obtain ⟨g1, h1, h2⟩ := bind_ok h
    exact Relation.ReflTransGen.trans
      (reach_add_reference_node (hsub r (List.mem_cons_self _ _)) h1)
      (ih (i + 1) g1 g' (fun r hr => hsub r (List.mem_cons_of_mem _ hr)) h2)

theorem reach_spatial_edges_for {refs figs : List PyDict} (rk : List Char) (rd : NodeData) :
    ∀ (fns : List (List Char × NodeData)) (g g' : Graph),
      spatial_edges_for rk rd g fns = .ok g' → BuildReach refs figs g g' := by
  intro fns
  induction fns with
  | nil =>
    intro g g' h
    simp [spatial_edges_for] at h
    exact h ▸ Relation.ReflTransGen.refl
  | cons kv rest ih =>
    intro g g' h
    rw [spatial_edges_for] at h
    split_ifs at h with hcompat hpage hnext hgt
    · exact ih g g' h
    · cases hd : calculate_distance rd.bbox kv.2.bbox with
      | error e => rw [hd] at h; exact absurd h (by simp)
      | ok dist =>
        cases dist with
        | none =>
          rw [hd] at h
          dsimp only at h
          exact ih g g' h
        | some d =>
          rw [hd] at h
          dsimp only at h
          split_ifs at h with hlt
          · exact Relation.ReflTransGen.trans
              (Relation.ReflTransGen.single
                (BuildOp.edge g rk kv.1 _ _ _ (by intro hrel; simp at hrel)))
              (ih _ g' h)
          · exact ih g g' h
    · exact Relation.ReflTransGen.trans
        (Relation.ReflTransGen.single
          (BuildOp.edge g rk kv.1 _ _ _ (by intro hrel; simp at hrel)))
        (ih _ g' h)
    · exact ih g g' h
    · exact ih g g' h

theorem reach_spatial_edges {refs figs : List PyDict}
    (fns : List (List Char × NodeData)) :
    ∀ (rns : List (List Char × NodeData)) (g g' : Graph),
      spatial_edges fns g rns = .ok g' → BuildReach refs figs g g' := by
  intro rns
  induction rns with
  | nil =>
    intro g g' h
    simp [spatial_edges] at h
    exact h ▸ Relation.ReflTransGen.refl
  | cons kv rest ih =>
    intro g g' h
    rw [spatial_edges] at h
    cases hs : spatial_edges_for kv.1 kv.2 g fns with
    | error e => rw [hs] at h; exact absurd h (by simp)
    | ok g2 =>
      rw [hs] at h
      exact Relation.ReflTransGen.trans (reach_spatial_edges_for kv.1 kv.2 fns g g2 hs)
        (ih g2 g' h)

theorem reach_semantic_edges_for {refs figs : List PyDict} (rk : List Char) (rd : NodeData) :
    ∀ (fns : List (List Char × NodeData)) (g : Graph),
      BuildReach refs figs g (semantic_edges_for rk rd g fns) := by
  intro fns
  induction fns with
  | nil => intro g; exact Relation.ReflTransGen.refl
  | cons kv rest ih =>
    intro g
    rw [semantic_edges_for]
    split_ifs with hcompat hsim
    · exact ih g
    · exact Relation.ReflTransGen.trans
        (Relation.ReflTransGen.single
          (BuildOp.edge g rk kv.1 _ _ _ (by intro hrel; simp at hrel)))
        (ih _)
    · exact ih g

theorem reach_semantic_edges {refs figs : List PyDict}
    (fns : List (List Char × NodeData)) :
    ∀ (rns : List (List Char × NodeData)) (g : Graph),
      BuildReach refs figs g (semantic_edges fns g rns) := by
  intro rns
  induction rns with
  | nil => intro g; exact Relation.ReflTransGen.refl
  | cons kv rest ih =>
    intro g
    rw [semantic_edges]
    exact Relation.ReflTransGen.trans (reach_semantic_edges_for kv.1 kv.2 fns g) (ih _)

/-- Everything `_build_graph` produces is reachable from the empty graph by
the three primitive operations. -/
theorem reach_build_graph {refs figs : List PyDict} {g : Graph}
    (h : build_graph refs figs = .ok g) : BuildReach refs figs emptyG g := by
  unfold build_graph at h
  obtain ⟨g1, h1, h2⟩ := bind_ok h
  obtain ⟨g2, h3, h4⟩ := bind_ok h2
  obtain ⟨g3, h5, h6⟩ := bind_ok h4
  simp at h6
  have r1 : BuildReach refs figs emptyG g1 :=
    reach_add_figure_nodes figs emptyG g1 (fun _ h => h) h1
  have r2 : BuildReach refs figs g1 g2 :=
    reach_add_reference_nodes refs 0 g1 g2 (fun _ h => h) h3
  have r3 : BuildReach refs figs g2 g3 := by
    unfold add_spatial_relationships at h5
    exact reach_spatial_edges _ _ g2 g3 h5
  have r4 : BuildReach refs figs g3 g := by
    rw [← h6]
    unfold add_semantic_relationships
    exact reach_semantic_edges _ _ g3
  exact Relation.ReflTransGen.trans r1
    (Relation.ReflTransGen.trans r2 (Relation.ReflTransGen.trans r3 r4))

/-- Invariant propagation along reachability. -/
theorem reach_invariant {refs figs : List PyDict} {P : Graph → Prop}
    (hfig : ∀ g f pidx, f ∈ figs → pyStrChars (pyGet f "figure_id" (.vStr "")) ≠ [] → P g →
      P (addNodeFig g (pyStrChars (pyGet f "figure_id" (.vStr "")))
          (get_figure_type f) f pidx (pyGet f "bbox" (.vDict []))
          (pyStrChars (pyGet f "text" (.vStr "")))))
    (href : ∀ g r i rt rid pidx, r ∈ refs → P g →
      P (addNodeRef g (refNodeKey i) rt rid r
          (pyStrChars (pyGet r "text" (.vStr ""))) (pyGet r "bbox" (.vDict [])) pidx))
    (hedge : ∀ g u v w rel d, (rel = "typed_id_match" → w = mkQ 9 10) → P g →
      P (addEdge g u v w rel d)) :
    ∀ {g g' : Graph}, BuildReach refs figs g g' → P g → P g' := by
  intro g g' hreach
  induction hreach with
  | refl => exact id
  | tail _ hstep ih =>
    intro hp
    cases hstep with
    | fig f pidx hf hne => exact hfig _ f pidx hf hne (ih hp)
    | ref r i rt rid pidx hr => exact href _ r i rt rid pidx hr (ih hp)
    | edge u v w rel d hw => exact hedge _ u v w rel d hw (ih hp)

/-! ## Membership lemmas for the primitive graph operations -/

theorem mem_updNodes (key : List Char) (f : NodeData → NodeData) :
    ∀ (ns : List (List Char × NodeData)) (z : List Char × NodeData),
      z ∈ updNodes ns key f → z ∈ ns ∨ ∃ nd, z = (key, f nd) := by
  intro ns
  induction ns with
  | nil => intro z hz; simp [updNodes] at hz; exact Or.inr ⟨defaultNode, hz⟩
  | cons kv rest ih =>
    intro z hz
    rw [updNodes] at hz
    split_ifs at hz with hk
    · rcases List.mem_cons.mp hz with rfl | hz2
      · exact Or.inr ⟨kv.2, by rw [hk]⟩
      · exact Or.inl (List.mem_cons_of_mem _ hz2)
    · rcases List.mem_cons.mp hz with rfl | hz2
      · exact Or.inl (List.mem_cons_self _ _)
      · rcases ih z hz2 with h | h
        · exact Or.inl (List.mem_cons_of_mem _ h)
        · exact Or.inr h

theorem mem_ensureNode (ns : List (List Char × NodeData)) (key : List Char)
    (z : List Char × NodeData) (hz : z ∈ ensureNode ns key) :
    z ∈ ns ∨ z = (key, defaultNode) := by
  unfold ensureNode at hz
  split_ifs at hz
  · exact Or.inl hz
  · rcases List.mem_append.mp hz with h | h
    · exact Or.inl h
    · simp at h
      exact Or.inr (by rw [h])

theorem mem_addEdge_nodes (g : Graph) (u v : List Char) (w : Qv) (rel : String)
    (d : Option Qv) (z : List Char × NodeData) (hz : z ∈ (addEdge g u v w rel d).nodes) :
    z ∈ g.nodes ∨ z = (u, defaultNode) ∨ z = (v, defaultNode) := by
  rcases mem_ensureNode _ _ _ hz with h | h
  · rcases mem_ensureNode _ _ _ h with h2 | h2
    · exact Or.inl h2
    · exact Or.inr (Or.inl h2)
  · exact Or.inr (Or.inr h)

/-! ## Edge-store and call-log lemmas (`DiGraph` overwrite semantics) -/

theorem findEdge_updEdges_self (u v : List Char) (w : Qv) (rel : String) (dist : Option Qv) :
    ∀ es, ∃ da, findEdge (updEdges es u v w rel dist) u v = some ⟨w, rel, da⟩ := by
  intro es
  induction es with
  | nil => exact ⟨dist, by simp [updEdges, findEdge]⟩
  | cons e rest ih =>
    rcases e with ⟨a, b, ed⟩
    rw [updEdges.eq_def]
    dsimp only
    split_ifs with hab
    · obtain ⟨rfl, rfl⟩ := hab
      cases dist with
      | some d => exact ⟨some d, by simp [findEdge]⟩
      | none => exact ⟨ed.distAttr, by simp [findEdge]⟩
    · obtain ⟨da, hda⟩ := ih
      refine ⟨da, ?_⟩
      rw [findEdge.eq_def]
      dsimp only
      split_ifs
      exact hda

theorem findEdge_updEdges_other (u v a b : List Char) (w : Qv) (rel : String)
    (dist : Option Qv) (hne : ¬(a = u ∧ b = v)) :
    ∀ es, findEdge (updEdges es u v w rel dist) a b = findEdge es a b := by
  intro es
  induction es with
  | nil =>
    show findEdge [(u, v, ⟨w, rel, dist⟩)] a b = findEdge [] a b
    rw [findEdge.eq_def]
    dsimp only
    split_ifs with h
    · exact absurd ⟨h.1.symm, h.2.symm⟩ hne
    · rfl
  | cons e rest ih =>
    rcases e with ⟨x, y, ed⟩
    rw [updEdges.eq_def]
    dsimp only
    split_ifs with hxy
    · obtain ⟨rfl, rfl⟩ := hxy
      rw [findEdge.eq_def]
      conv_rhs => rw [findEdge.eq_def]
      dsimp only
      split_ifs with h
      · exact absurd ⟨h.1.symm, h.2.symm⟩ hne
      · rfl
    · rw [findEdge.eq_def]
      conv_rhs => rw [findEdge.eq_def]
      dsimp only
      split_ifs with h
      · rfl
      · exact ih

theorem pairLog_append_match (L : List (List Char × List Char × Qv × String))
    (u v : List Char) (w : Qv) (rel : String) :
    pairLog (L ++ [(u, v, w, rel)]) u v = pairLog L u v ++ [(u, v, w, rel)] := by
  unfold pairLog
  rw [List.filter_append]
  simp

theorem pairLog_append_other (L : List (List Char × List Char × Qv × String))
    (u v a b : List Char) (w : Qv) (rel : String) (hne : ¬(a = u ∧ b = v)) :
    pairLog (L ++ [(u, v, w, rel)]) a b = pairLog L a b := by
  unfold pairLog
  rw [List.filter_append]
  have : decide ((u, v, w, rel).1 = a ∧ (u, v, w, rel).2.1 = b) = false := by
    simp only [decide_eq_false_iff_not]
    intro hc
    exact hne ⟨hc.1.symm, hc.2.symm⟩
  simp [List.filter, this]

/-- C1's replacement invariant: the single weight/relation the `DiGraph`
stores for a pair is exactly the one of the **last** `add_edge` call issued
for that pair. -/
def EdgeIsLastLogged (g : Graph) : Prop :=
  ∀ u v ed, edgeData g u v = some ed →
    ∃ pre, pairLog g.addLog u v = pre ++ [(u, v, ed.weight, ed.relation)]

theorem edgeIsLastLogged_empty : EdgeIsLastLogged emptyG := by
  intro u v ed h
  simp [edgeData, emptyG, findEdge] at h

theorem edgeIsLastLogged_addEdge (g : Graph) (u v : List Char) (w : Qv) (rel : String)
    (d : Option Qv) (hp : EdgeIsLastLogged g) : EdgeIsLastLogged (addEdge g u v w rel d) := by
  intro a b ed hed
  by_cases hab : a = u ∧ b = v
  · rcases hab with ⟨rfl, rfl⟩
    obtain ⟨da, hda⟩ := findEdge_updEdges_self a b w rel d g.edges
    have : ed = ⟨w, rel, da⟩ := by
      have h2 : edgeData (addEdge g a b w rel d) a b = some (⟨w, rel, da⟩ : EdgeData) := hda
      rw [hed] at h2
      exact Option.some.inj h2.symm |>.symm
    subst this
    exact ⟨pairLog g.addLog a b, pairLog_append_match g.addLog a b w rel⟩
  · have h2 : edgeData g a b = some ed := by
      have := findEdge_updEdges_other u v a b w rel d hab g.edges
      rw [show edgeData (addEdge g u v w rel d) a b
            = findEdge (updEdges g.edges u v w rel d) a b from rfl, this] at hed
      exact hed
    obtain ⟨pre, hpre⟩ := hp a b ed h2
    refine ⟨pre, ?_⟩
    rw [show (addEdge g u v w rel d).addLog = g.addLog ++ [(u, v, w, rel)] from rfl,
        pairLog_append_other g.addLog u v a b w rel hab, hpre]

theorem edgeIsLastLogged_reach {refs figs : List PyDict} {g g' : Graph}
    (hreach : BuildReach refs figs g g') (hp : EdgeIsLastLogged g) : EdgeIsLastLogged g' := by
  refine reach_invariant ?_ ?_ ?_ hreach hp
  · intro g f pidx _ _ hq u v ed hed
    exact hq u v ed hed
  · intro g r i rt rid pidx _ hq u v ed hed
    exact hq u v ed hed
  · intro g u v w rel d _ hq
    exact edgeIsLastLogged_addEdge g u v w rel d hq

/-- C5's replacement invariant: every logged `typed_id_match` edge has
weight exactly 0.9. -/
def IdMatchLogNine (g : Graph) : Prop :=
  ∀ e ∈ g.addLog, e.2.2.2 = "typed_id_match" → e.2.2.1 = mkQ 9 10

theorem idMatchLogNine_reach {refs figs : List PyDict} {g g' : Graph}
    (hreach : BuildReach refs figs g g') (hp : IdMatchLogNine g) : IdMatchLogNine g' := by
  refine reach_invariant ?_ ?_ ?_ hreach hp
  · intro g f pidx _ _ hq e he hrel
    exact hq e he hrel
  · intro g r i rt rid pidx _ hq e he hrel
    exact hq e he hrel
  · intro g u v w rel d hw hq e he hrel
    rcases List.mem_append.mp he with h | h
    · exact hq e h hrel
    · simp at h
      rw [h] at hrel ⊢
      exact hw hrel

/-! ## Exception analysis of the mapping call (claim C4) -/

/-- `int(v)` succeeds. -/
def intOkB (v : Val) : Bool :=
  match pyIntE v with
  | .ok _ => true
  | .error _ => false

/-- A value `_calculate_distance` can process without raising: falsy, or a
dict. -/
def dictish (v : Val) : Bool := !pyTruthy v || (asDict v).isSome

/-- All node bboxes in the graph are benign for `_calculate_distance`. -/
def NodesDictish (g : Graph) : Prop := ∀ kv ∈ g.nodes, dictish kv.2.bbox = true

theorem nodesDictish_reach {refs figs : List PyDict} {g g' : Graph}
    (hf : ∀ f ∈ figs, dictish (pyGet f "bbox" (.vDict [])) = true)
    (hr : ∀ r ∈ refs, dictish (pyGet r "bbox" (.vDict [])) = true)
    (hreach : BuildReach refs figs g g') (hp : NodesDictish g) : NodesDictish g' := by
  refine reach_invariant ?_ ?_ ?_ hreach hp
  · intro g f pidx hfm _ hq kv hkv
    rcases mem_updNodes _ _ _ _ hkv with h | ⟨nd, rfl⟩
    · exact hq kv h
    · exact hf f hfm
  · intro g r i rt rid pidx hrm hq kv hkv
    rcases mem_updNodes _ _ _ _ hkv with h | ⟨nd, rfl⟩
    · exact hq kv h
    · exact hr r hrm
  · intro g u v w rel d _ hq kv hkv
    rcases mem_addEdge_nodes g u v w rel d kv hkv with h | rfl | rfl
    · exact hq kv h
    · show dictish defaultNode.bbox = true
      decide
    · show dictish defaultNode.bbox = true
      decide

theorem calculate_distance_ok {a b : Val} (ha : dictish a = true) (hb : dictish b = true) :
    ∃ r, calculate_distance a b = .ok r := by
  unfold calculate_distance
  split_ifs with ht
  · exact ⟨none, rfl⟩
  · have hta : pyTruthy a = true := by
      by_contra hx
      simp [Bool.not_eq_true] at hx
      simp [hx] at ht
    have htb : pyTruthy b = true := by
      by_contra hx
      simp [Bool.not_eq_true] at hx
      simp [hx] at ht
    have hda : (asDict a).isSome := by
      unfold dictish at ha
      rw [hta] at ha
      simpa using ha
    have hdb : (asDict b).isSome := by
      unfold dictish at hb
      rw [htb] at hb
      simpa using hb
    obtain ⟨d1, hd1⟩ := Option.isSome_iff_exists.mp hda
    obtain ⟨d2, hd2⟩ := Option.isSome_iff_exists.mp hdb
    rw [hd1]
    dsimp only
    cases hc1 : centerOf d1 with
    | none => exact ⟨none, rfl⟩
    | some c1 =>
      rcases c1 with ⟨x1, y1⟩
      dsimp only
      rw [hd2]
      dsimp only
      cases hc2 : centerOf d2 with
      | none => exact ⟨none, rfl⟩
      | some c2 =>
        rcases c2 with ⟨x2, y2⟩
        exact ⟨_, rfl⟩

theorem spatial_edges_for_ok (rk : List Char) (rd : NodeData)
    (hrd : dictish rd.bbox = true) :
    ∀ (fns : List (List Char × NodeData)) (g : Graph),
      (∀ kv ∈ fns, dictish kv.2.bbox = true) →
      ∃ g', spatial_edges_for rk rd g fns = .ok g' := by
  intro fns
  induction fns with
  | nil => intro g _; exact ⟨g, rfl⟩
  | cons kv rest ih =>
    intro g hall
    rw [spatial_edges_for]
    split_ifs with hcompat hpage hnext hgt
    · exact ih g (fun z hz => hall z (List.mem_cons_of_mem _ hz))
    · obtain ⟨r, hr⟩ := calculate_distance_ok hrd (hall kv (List.mem_cons_self _ _))
      rw [hr]
      cases r with
      | none => exact ih g (fun z hz => hall z (List.mem_cons_of_mem _ hz))
      | some d =>
        dsimp only
        split_ifs with hlt
        · exact ih _ (fun z hz => hall z (List.mem_cons_of_mem _ hz))
        · exact ih g (fun z hz => hall z (List.mem_cons_of_mem _ hz))
    · exact ih _ (fun z hz => hall z (List.mem_cons_of_mem _ hz))
    · exact ih g (fun z hz => hall z (List.mem_cons_of_mem _ hz))
    · exact ih g (fun z hz => hall z (List.mem_cons_of_mem _ hz))

theorem spatial_edges_ok (fns : List (List Char × NodeData))
    (hf : ∀ kv ∈ fns, dictish kv.2.bbox = true) :
    ∀ (rns : List (List Char × NodeData)) (g : Graph),
      (∀ kv ∈ rns, dictish kv.2.bbox = true) →
      ∃ g', spatial_edges fns g rns = .ok g' := by
  intro rns
  induction rns with
  | nil => intro g _; exact ⟨g, rfl⟩
  | cons kv rest ih =>
    intro g hall
    rw [spatial_edges]
    obtain ⟨g2, h2⟩ := spatial_edges_for_ok kv.1 kv.2 (hall kv (List.mem_cons_self _ _)) fns g hf
    rw [h2]
    exact ih g2 (fun z hz => hall z (List.mem_cons_of_mem _ hz))

theorem add_figure_node_ok (g : Graph) (f : PyDict)
    (hint : intOkB (pyGet f "page_idx" (.vInt 0)) = true) :
    ∃ g', add_figure_node g f = .ok g' := by
  unfold add_figure_node
  split_ifs with hemp
  · exact ⟨g, rfl⟩
  · cases hip : pyIntE (pyGet f "page_idx" (.vInt 0)) with
    | error e => simp [intOkB, hip] at hint
    | ok pidx => exact ⟨_, rfl⟩

theorem add_figure_nodes_ok :
    ∀ (fs : List PyDict) (g : Graph),
      (∀ f ∈ fs, intOkB (pyGet f "page_idx" (.vInt 0)) = true) →
      ∃ g', add_figure_nodes g fs = .ok g' := by
  intro fs
  induction fs with
  | nil => intro g _; exact ⟨g, rfl⟩
  | cons f rest ih =>
    intro g hall
    obtain ⟨g1, h1⟩ := add_figure_node_ok g f (hall f (List.mem_cons_self _ _))
    obtain ⟨g2, h2⟩ := ih g1 (fun z hz => hall z (List.mem_cons_of_mem _ hz))
    refine ⟨g2, ?_⟩
    rw [add_figure_nodes, h1]
    exact h2

theorem add_reference_node_ok (g : Graph) (i : Nat) (r : PyDict)
    (hint : intOkB (pyGet r "page_idx" (.vInt 0)) = true) :
    ∃ g', add_reference_node g i r = .ok g' := by
  unfold add_reference_node
  cases hip : pyIntE (pyGet r "page_idx" (.vInt 0)) with
  | error e => simp [intOkB, hip] at hint
  | ok pidx =>
    dsimp only
    cases hX : (extract_typed_id_from_reference (pyStrChars (pyGet r "text" (.vStr "")))).2 with
    | none => exact ⟨_, rfl⟩
    | some l =>
      dsimp only
      split_ifs with hc
      · exact ⟨_, rfl⟩
      · exact ⟨_, rfl⟩

theorem add_reference_nodes_ok :
    ∀ (rs : List PyDict) (i : Nat) (g : Graph),
      (∀ r ∈ rs, intOkB (pyGet r "page_idx" (.vInt 0)) = true) →
      ∃ g', add_reference_nodes g i rs = .ok g' := by
  intro rs
  induction rs with
  | nil => intro i g _; exact ⟨g, rfl⟩
  | cons r rest ih =>
    intro i g hall
    obtain ⟨g1, h1⟩ := add_reference_node_ok g i r (hall r (List.mem_cons_self _ _))
    obtain ⟨g2, h2⟩ := ih (i + 1) g1 (fun z hz => hall z (List.mem_cons_of_mem _ hz))
    refine ⟨g2, ?_⟩
    rw [add_reference_nodes, h1]
    exact h2

theorem build_graph_ok (refs figs : List PyDict)
    (hfig : ∀ f ∈ figs, intOkB (pyGet f "page_idx" (.vInt 0)) = true ∧
      dictish (pyGet f "bbox" (.vDict [])) = true)
    (href : ∀ r ∈ refs, intOkB (pyGet r "page_idx" (.vInt 0)) = true ∧
      dictish (pyGet r "bbox" (.vDict [])) = true) :
    ∃ g, build_graph refs figs = .ok g := by
  obtain ⟨g1, h1⟩ := add_figure_nodes_ok figs emptyG (fun f hf => (hfig f hf).1)
  obtain ⟨g2, h2⟩ := add_reference_nodes_ok refs 0 g1 (fun r hr => (href r hr).1)
  have reach2 : BuildReach refs figs emptyG g2 :=
    Relation.ReflTransGen.trans
      (reach_add_figure_nodes figs emptyG g1 (fun _ h => h) h1)
      (reach_add_reference_nodes refs 0 g1 g2 (fun _ h => h) h2)
  have hnd : NodesDictish g2 :=
    nodesDictish_reach (fun f hf => (hfig f hf).2) (fun r hr => (href r hr).2) reach2
      (fun kv hkv => absurd hkv (by simp [emptyG]))
  obtain ⟨g3, h3⟩ := spatial_edges_ok (g2.nodes.filter (fun n => n.2.ntype = "figure"))
    (fun kv hkv => hnd kv (List.mem_of_mem_filter hkv))
    (g2.nodes.filter (fun n => n.2.ntype = "reference")) g2
    (fun kv hkv => hnd kv (List.mem_of_mem_filter hkv))
  refine ⟨add_semantic_relationships g3, ?_⟩
  unfold build_graph
  rw [h1]
  show (add_reference_nodes g1 0 refs).bind _ = _
  rw [h2]
  show (add_spatial_relationships g2).bind _ = _
  unfold add_spatial_relationships
  rw [h3]
  rfl

/-! ## Figure-node provenance (claim C10) -/

/-- C10's invariant: every node currently tagged `figure` was added by the
figure loop, so its key is the nonempty `str(figure_id)` of some input
figure. -/
def FigNodesFromInput (figs : List PyDict) (g : Graph) : Prop :=
  ∀ kv ∈ g.nodes, kv.2.ntype = "figure" →
    kv.1 ≠ [] ∧ ∃ f ∈ figs, kv.1 = pyStrChars (pyGet f "figure_id" (.vStr ""))

theorem figNodesFromInput_reach {refs figs : List PyDict} {g g' : Graph}
    (hreach : BuildReach refs figs g g') (hp : FigNodesFromInput figs g) :
    FigNodesFromInput figs g' := by
  refine reach_invariant ?_ ?_ ?_ hreach hp
  · intro g f pidx hf hne hq kv hkv hfigtag
    rcases mem_updNodes _ _ _ _ hkv with h | ⟨nd, rfl⟩
    · exact hq kv h hfigtag
    · exact ⟨hne, f, hf, rfl⟩
  · intro g r i rt rid pidx _ hq kv hkv hfigtag
    rcases mem_updNodes _ _ _ _ hkv with h | ⟨nd, rfl⟩
    · exact hq kv h hfigtag
    · exact absurd hfigtag (by simp)
  · intro g u v w rel d _ hq kv hkv hfigtag
    rcases mem_addEdge_nodes g u v w rel d kv hkv with h | rfl | rfl
    · exact hq kv h hfigtag
    · exact absurd hfigtag (by simp [defaultNode])
    · exact absurd hfigtag (by simp [defaultNode])

theorem mem_insDesc (x : List Char × Qv) :
    ∀ l, ∀ z ∈ insDesc x l, z = x ∨ z ∈ l := by
  intro l
  induction l with
  | nil => intro z hz; simpa [insDesc] using hz
  | cons y ys ih =>
    intro z hz
    rw [insDesc] at hz
    split_ifs at hz
    · rcases List.mem_cons.mp hz with rfl | h
      · exact Or.inl rfl
      · exact Or.inr h
    · rcases List.mem_cons.mp hz with rfl | h
      · exact Or.inr (List.mem_cons_self _ _)
      · rcases ih z h with h2 | h2
        · exact Or.inl h2
        · exact Or.inr (List.mem_cons_of_mem _ h2)

theorem mem_sortDescW (l : List (List Char × Qv)) : ∀ z ∈ sortDescW l, z ∈ l := by
  suffices h : ∀ (xs acc : List (List Char × Qv)),
      (∀ z ∈ acc, z ∈ l) → (∀ z ∈ xs, z ∈ l) →
      ∀ z ∈ xs.foldl (fun a x => insDesc x a) acc, z ∈ l by
    intro z hz
    exact h l [] (by simp) (fun z hz => hz) z hz
  intro xs
  induction xs with
  | nil => intro acc hacc _ z hz; exact hacc z hz
  | cons x rest ih =>
    intro acc hacc hxs z hz
    simp only [List.foldl_cons] at hz
    refine ih (insDesc x acc) ?_ (fun z hz => hxs z (List.mem_cons_of_mem _ hz)) z hz
    intro z hz2
    rcases mem_insDesc x acc z hz2 with rfl | h
    · exact hxs z (List.mem_cons_self _ _)
    · exact hacc z h

theorem mem_connected_figures (g : Graph) (rk : List Char) (z : List Char × Qv)
    (hz : z ∈ connected_figures g rk) :
    ∃ nd, findNode g z.1 = some nd ∧ nd.ntype = "figure" ∧
      z.2 = (match edgeData g rk z.1 with | some ed => ed.weight | none => qI 0) := by
  unfold connected_figures at hz
  obtain ⟨v, hv, hf⟩ := List.mem_filterMap.mp hz
  cases hnode : findNode g v with
  | none => rw [hnode] at hf; simp at hf
  | some nd =>
    rw [hnode] at hf
    dsimp only at hf
    split_ifs at hf with htag
    simp at hf
    rcases hf with ⟨rfl, rfl⟩
    exact ⟨nd, hnode, htag, rfl⟩

theorem infer_mappings_target (g : Graph) :
    ∀ z ∈ infer_relationships g,
      ∃ nd, findNode g z.2 = some nd ∧ nd.ntype = "figure" := by
  unfold infer_relationships
  suffices h : ∀ (ns : List (List Char × NodeData)) (acc : List (List Char × List Char)),
      (∀ z ∈ acc, ∃ nd, findNode g z.2 = some nd ∧ nd.ntype = "figure") →
      ∀ z ∈ ns.foldl (fun acc n =>
        match sortDescW (connected_figures g n.1) with
        | [] => acc
        | best :: _ => if qLtB (mkQ 3 10) best.2 then acc ++ [(n.1, best.1)] else acc) acc,
        ∃ nd, findNode g z.2 = some nd ∧ nd.ntype = "figure" by
    intro z hz
    exact h _ [] (by simp) z hz
  intro ns
  induction ns with
  | nil => intro acc hacc z hz; exact hacc z hz
  | cons n rest ih =>
    intro acc hacc z hz
    simp only [List.foldl_cons] at hz
    refine ih _ ?_ z hz
    intro z2 hz2
    cases hs : sortDescW (connected_figures g n.1) with
    | nil =>
      rw [hs] at hz2
      exact hacc z2 hz2
    | cons best tail =>
      rw [hs] at hz2
      dsimp only at hz2
      split_ifs at hz2 with hlt
      · rcases List.mem_append.mp hz2 with h2 | h2
        · exact hacc z2 h2
        · simp at h2
          rw [h2]
          have hmem : best ∈ sortDescW (connected_figures g n.1) := by
            rw [hs]; exact List.mem_cons_self _ _
          obtain ⟨nd, hnd, htag, _⟩ :=
            mem_connected_figures g n.1 best (mem_sortDescW _ best hmem)
          exact ⟨nd, hnd, htag⟩
      · exact hacc z2 hz2

theorem alookup_mem {α β : Type} [DecidableEq α] :
    ∀ (l : List (α × β)) (k : α) (v : β), alookup l k = some v → (k, v) ∈ l := by
  intro l
  induction l with
  | nil => intro k v h; simp [alookup] at h
  | cons kv rest ih =>
    intro k v h
    rw [show alookup (kv :: rest) k = if kv.1 = k then some kv.2 else alookup rest k from rfl] at h
    split_ifs at h with he
    · simp at h
      have hkv : kv = (k, v) := Prod.ext he h
      rw [← hkv]
      exact List.mem_cons_self _ _
    · exact List.mem_cons_of_mem _ (ih k v h)

theorem findNode_mem (g : Graph) (k : List Char) (nd : NodeData)
    (h : findNode g k = some nd) : (k, nd) ∈ g.nodes :=
  alookup_mem g.nodes k nd h

theorem mapped_references_get (g : Graph) (m : List (List Char × List Char)) :
    ∀ (rs : List PyDict) (j i : Nat),
      (mapped_references g m j rs).get? i = (rs.get? i).map (mapped_reference g m (j + i)) := by
  intro rs
  induction rs with
  | nil => intro j i; simp [mapped_references]
  | cons r rest ih =>
    intro j i
    cases i with
    | zero => simp [mapped_references]
    | succ i2 =>
      rw [mapped_references]
      show (mapped_references g m (j + 1) rest).get? i2 = _
      rw [ih (j + 1) i2]
      have : j + 1 + i2 = j + (i2 + 1) := by omega
      rw [this]
      rfl

/-! ## Inversion of `mapRefsFull` -/

theorem mapRefsFull_empty_branch {refs figs : List PyDict}
    (h : refs.isEmpty || figs.isEmpty) :
    mapRefsFull refs figs = .ok (create_unmapped_references refs, emptyG) := by
  unfold mapRefsFull
  rw [if_pos h]

theorem mapRefsFull_ok_inv {refs figs : List PyDict} {p : List PyDict × Graph}
    (h : mapRefsFull refs figs = .ok p) :
    (p = (create_unmapped_references refs, emptyG)) ∨
      (build_graph refs figs = .ok p.2 ∧
        p.1 = mapped_references p.2 (infer_relationships p.2) 0 refs) := by
  unfold mapRefsFull at h
  split_ifs at h with hempty
  · simp at h
    exact Or.inl h.symm
  · obtain ⟨g, hg, h2⟩ := bind_ok h
    simp at h2
    rw [← h2]
    exact Or.inr ⟨hg, rfl⟩

/-! ## Concrete scenarios used by the claim theorems -/

def zeroBox : Val :=
  .vDict [("x", .vInt 0), ("y", .vInt 0), ("width", .vInt 0), ("height", .vInt 0)]

def fragBox : Val :=
  .vDict [("x", .vInt 0), ("y", .vInt 0), ("width", .vInt 36), ("height", .vInt 1)]

def c1refs : List PyDict :=
  [[("text", .vStr "fig. 1"), ("bbox", zeroBox), ("page_idx", .vInt 0)]]

def c1figs : List PyDict :=
  [[("figure_id", .vStr "1"), ("type", .vStr "figure"), ("text", .vStr "fig. 1"),
    ("page_idx", .vInt 0), ("bbox", zeroBox)]]

/-- The weight/relation/distance record left on the overwritten edge in the
C1 scenario (`0.3` from the semantic pass, jaccard `2/2` times `0.3`). -/
def c1storedEdge : EdgeData :=
  ⟨qMul (mkQ 2 2) (mkQ 3 10), "semantic_typed", some (qSqrt (mkQ 0 256))⟩

def c2refs : List PyDict :=
  [[("text", .vStr "Fig. 2.31"), ("bbox", zeroBox), ("page_idx", .vInt 0)],
   [("text", .vStr "(2.31)"), ("bbox", zeroBox), ("page_idx", .vInt 0)],
   [("text", .vStr "Table 2.31"), ("bbox", zeroBox), ("page_idx", .vInt 0)]]

def c2figs : List PyDict :=
  [[("figure_id", .vStr "2.31"), ("type", .vStr "figure"), ("page_idx", .vInt 0)],
   [("figure_id", .vStr "2.31"), ("type", .vStr "equation"), ("page_idx", .vInt 0)],
   [("figure_id", .vStr "2.31"), ("type", .vStr "table"), ("page_idx", .vInt 0)]]

def c3p0 : PageIn :=
  ⟨0, .vStr "p0.png", [.vDict [("text", .vStr "Fig. 1"), ("bbox", fragBox)]], []⟩

def c3p1 : PageIn :=
  ⟨1, .vStr "p1.png", [],
   [[("type", .vStr "figure"), ("text", .vStr "Figure 1: cat"),
     ("bbox", .vDict [("x", .vInt 5), ("y", .vInt 5), ("width", .vInt 10), ("height", .vInt 10)]),
     ("confidence", .vQ (qI 1))]]⟩

def c4refs : List PyDict := [[("text", .vStr "x")]]

def c4figs : List PyDict := [[("figure_id", .vStr "1"), ("page_idx", .vStr "abc")]]

def c5refs : List PyDict := [[("text", .vStr "fig. 1.2"), ("page_idx", .vInt 0)]]

def c5figsA : List PyDict :=
  [[("figure_id", .vStr "1.2a"), ("type", .vStr "figure"), ("text", .vStr ""),
    ("page_idx", .vInt 0)]]

def c5figsB : List PyDict :=
  [[("figure_id", .vStr "9"), ("type", .vStr "figure"), ("text", .vStr "shown at 1.2 here"),
    ("page_idx", .vInt 0)]]

def c6ref : PyDict := [("text", .vStr "fig. 1"), ("bbox", zeroBox), ("page_idx", .vInt 3)]

def c8blockA : PyDict :=
  [("type", .vStr "chart"), ("text", .vStr ""), ("bbox", .vDict [("y", .vInt 100)])]

def c8blockB : PyDict :=
  [("type", .vStr "graph"), ("text", .vStr ""), ("bbox", .vDict [("y", .vInt 100)])]

def c8blockC : PyDict :=
  [("type", .vStr "figure"), ("text", .vStr ""), ("bbox", .vDict [("y", .vInt 1)])]

def c8blockD : PyDict :=
  [("type", .vStr "table"), ("text", .vStr ""), ("bbox", .vDict [("y", .vInt 1)])]

def c10refs : List PyDict := [[("text", .vStr "fig. 1")]]

def c10figs : List PyDict := [[("figure_id", .vStr "1"), ("type", .vStr "figure")]]

/-! ## Claim C9 — BoundingBox construction -/

/-- C9 counterexample: the `@dataclass BoundingBox` performs no clamping;
constructed with width `-5` it stores the negative width and its `area` is
the negative `-15`, contradicting the claimed `width ≥ 0`, `area ≥ 0`
construction invariant. -/
theorem c9_counterexample :
    (BoundingBox.mk 0 0 (-5) 3).width = -5 ∧ (BoundingBox.mk 0 0 (-5) 3).width < 0 ∧
    (BoundingBox.mk 0 0 (-5) 3).area = -15 ∧ (BoundingBox.mk 0 0 (-5) 3).area < 0 :=
  ⟨rfl, by decide, by decide, by decide⟩

/-- C9 (amended): `BoundingBox` stores its constructor arguments exactly as
given (no clamping anywhere); `area = width * height`, so the `width ≥ 0`,
`height ≥ 0`, `area ≥ 0` invariants hold only when the caller passes
nonnegative sizes. -/
theorem c9_amended (x y w h : Int) :
    (BoundingBox.mk x y w h).x = x ∧ (BoundingBox.mk x y w h).y = y ∧
    (BoundingBox.mk x y w h).width = w ∧ (BoundingBox.mk x y w h).height = h ∧
    (BoundingBox.mk x y w h).area = w * h ∧
    (0 ≤ w → 0 ≤ h → 0 ≤ (BoundingBox.mk x y w h).area) :=
  ⟨rfl, rfl, rfl, rfl, rfl, fun hw hh => mul_nonneg hw hh⟩

/-- C9 witness: the amended statement at the concrete box `(1, 2, 3, 4)`. -/
theorem c9_witness :
    (0 : Int) ≤ 3 ∧ (0 : Int) ≤ 4 ∧ 0 ≤ (BoundingBox.mk 1 2 3 4).area :=
  ⟨by decide, by decide, (c9_amended 1 2 3 4).2.2.2.2.2 (by decide) (by decide)⟩

/-! ## Claim C8 — fallback figure IDs -/

theorem extract_typed_figure_id_none {t : List Char}
    (h : (extract_typed_figure_id t).1 = none) : extract_typed_figure_id t = (none, none) := by
  unfold extract_typed_figure_id at h ⊢
  split_ifs at h ⊢ with he
  · rfl
  · cases hfp : firstPatternMatch t (gen_id_patterns.map (fun pt => (pt.2, pt.1))) with
    | none => rfl
    | some tg => rw [hfp] at h; simp at h

/-- The `figure_id` emitted when no ID pattern matches the block's text: the
synthesized fallback string. -/
theorem gfi_fallback_figure_id (block : PyDict) (page : Int)
    (h : (extract_typed_figure_id (trimWs (pyStrChars (pyGet block "text" (.vStr ""))))).1 = none) :
    dictLookup (generate_figure_info block page) "figure_id"
      = some (.vStr (String.mk (fallbackStr
          (determine_reference_type (pyStrChars (pyGet block "type" (.vStr "figure")))
            (trimWs (pyStrChars (pyGet block "text" (.vStr "")))))
          page (safeY (pyGet block "bbox" (.vDict [])))))) := by
  have hx := extract_typed_figure_id_none h
  unfold generate_figure_info
  dsimp only
  rw [hx]
  rfl

/-- C8 counterexample: layout types `chart` and `graph` share the `figure`
short prefix, so two distinct elements with different `type` but the same
`y` on the same page receive the *same* synthesized fallback ID, refuting
the claimed injectivity in `(type, y)`. -/
theorem c8_counterexample :
    dictLookup c8blockA "type" = some (.vStr "chart") ∧
    dictLookup c8blockB "type" = some (.vStr "graph") ∧
    ("chart" : String) ≠ "graph" ∧
    dictLookup (generate_figure_info c8blockA 0) "figure_id" = some (.vStr "fig_0_100") ∧
    dictLookup (generate_figure_info c8blockB 0) "figure_id" = some (.vStr "fig_0_100") :=
  ⟨rfl, rfl, by decide, rfl, rfl⟩

/-- C8 (amended): the fallback ID is `"{prefix}_{page}_{y}"`, and two
elements on the same page whose *mapped reference types*
(`_determine_reference_type`) or `y` coordinates differ never collide —
injectivity holds in `(reference type, y)`, not in the raw layout `(type, y)`
pair, because several layout types map to the same prefix. -/
theorem c8_amended (b1 b2 : PyDict) (page : Int)
    (h1 : (extract_typed_figure_id (trimWs (pyStrChars (pyGet b1 "text" (.vStr ""))))).1 = none)
    (h2 : (extract_typed_figure_id (trimWs (pyStrChars (pyGet b2 "text" (.vStr ""))))).1 = none)
    (hne : (determine_reference_type (pyStrChars (pyGet b1 "type" (.vStr "figure")))
              (trimWs (pyStrChars (pyGet b1 "text" (.vStr "")))),
            safeY (pyGet b1 "bbox" (.vDict [])))
         ≠ (determine_reference_type (pyStrChars (pyGet b2 "type" (.vStr "figure")))
              (trimWs (pyStrChars (pyGet b2 "text" (.vStr "")))),
            safeY (pyGet b2 "bbox" (.vDict [])))) :
    dictLookup (generate_figure_info b1 page) "figure_id"
      ≠ dictLookup (generate_figure_info b2 page) "figure_id" := by
  intro heq
  rw [gfi_fallback_figure_id b1 page h1, gfi_fallback_figure_id b2 page h2] at heq
  simp only [Option.some.injEq, Val.vStr.injEq] at heq
  obtain ⟨ht, hy⟩ := fallbackStr_inj_on_five
    (determine_reference_type_mem _ _) (determine_reference_type_mem _ _)
    (congrArg String.data heq)
  exact hne (by rw [ht, hy])

/-- C8 witness: the amended statement at two blocks of types `figure` and
`table` with equal `y`. -/
theorem c8_witness :
    (extract_typed_figure_id (trimWs (pyStrChars (pyGet c8blockC "text" (.vStr ""))))).1 = none ∧
    (extract_typed_figure_id (trimWs (pyStrChars (pyGet c8blockD "text" (.vStr ""))))).1 = none ∧
    dictLookup (generate_figure_info c8blockC 0) "figure_id"
      ≠ dictLookup (generate_figure_info c8blockD 0) "figure_id" :=
  ⟨rfl, rfl, c8_amended c8blockC c8blockD 0 rfl rfl (by decide)⟩

/-! ## Claim C7 — reference-extraction overlap resolution -/

/-- C7 counterexample: on `"Table 1 and 2"` the `Table` pattern and the
combined `Tables?…and…` pattern both match at offset 0; the code keeps the
one that comes first in pattern order (`"Table 1"`, width 7) and discards
the longer same-offset match (width 13), so same-offset ties are *not*
resolved by length. -/
theorem c7_counterexample :
    selectMatches (-1) (sortByStart (ref_matches "Table 1 and 2".toList))
      = [⟨0, 7, "table"⟩] ∧
    (⟨0, 13, "combined"⟩ : MInfo) ∈ ref_matches "Table 1 and 2".toList ∧ (7 : Nat) < 13 ∧
    (extract_references [.vDict [("text", .vStr "Table 1 and 2"), ("bbox", fragBox)]] none).map
      (fun d => dictLookup d "text") = [some (.vStr "Table 1")] :=
  ⟨rfl, by decide, by decide, rfl⟩

/-- C7 (amended): the kept matches are pairwise non-overlapping with
strictly increasing start offsets and are drawn from the pattern-match
pool, keeping the earliest-starting match; but a tie at the same start
offset is resolved by pattern-table order (stable sort on the start offset
only), not by match length.  On `"Fig. 1 and Eq. (2)"` exactly two
references result, typed `figure` and `equation`. -/
theorem c7_amended (tl : List Char)
    (hw : ∀ m ∈ ref_matches tl, m.mstart < m.mstop) :
    ((selectMatches (-1) (sortByStart (ref_matches tl))).Pairwise
        (fun a b => a.mstop ≤ b.mstart ∧ a.mstart < b.mstart)) ∧
    (∀ m ∈ selectMatches (-1) (sortByStart (ref_matches tl)), m ∈ ref_matches tl) ∧
    (selectMatches (-1) (sortByStart (ref_matches "Fig. 1 and Eq. (2)".toList))
        = [⟨0, 6, "figure"⟩, ⟨11, 18, "equation"⟩]) ∧
    ((extract_references [.vDict [("text", .vStr "Fig. 1 and Eq. (2)"), ("bbox", fragBox)]] none).map
        (fun d => (dictLookup d "text", dictLookup d "reference_type"))
      = [(some (.vStr "Fig. 1"), some (.vStr "figure")),
         (some (.vStr "Eq. (2)"), some (.vStr "equation"))]) := by
  refine ⟨?_, ?_, rfl, rfl⟩
  · exact selectMatches_pairwise (-1) _ (fun m hm => hw m (sortByStart_mem _ m hm))
  · intro m hm
    exact sortByStart_mem _ m (selectMatches_subset (-1) _ m hm)

/-- C7 witness: the amended statement at the fragment
`"Fig. 1 and Eq. (2)"`. -/
theorem c7_witness :
    (∀ m ∈ ref_matches "Fig. 1 and Eq. (2)".toList, m.mstart < m.mstop) ∧
    ((selectMatches (-1) (sortByStart (ref_matches "Fig. 1 and Eq. (2)".toList))).Pairwise
        (fun a b => a.mstop ≤ b.mstart ∧ a.mstart < b.mstart)) :=
  ⟨by decide, (c7_amended "Fig. 1 and Eq. (2)".toList (by decide)).1⟩

/-! ## Claim C6 — empty-input short-circuit -/

/-- C6 counterexample: with no figures, an input reference carrying a
`page_idx` field comes back *without* it (the short-circuit rebuilds the
record from scratch with exactly `text`, `bbox`, `not_matched`,
`reference_type`), so references are not "returned unchanged". -/
theorem c6_counterexample :
    hasKey c6ref "page_idx" = true ∧
    map_references_to_figures [c6ref] [] =
      .ok [[("text", .vStr "fig. 1"), ("bbox", zeroBox), ("not_matched", .vBool true),
            ("reference_type", .vStr "figure")]] ∧
    (mapOut [c6ref] []).map (fun d => hasKey d "page_idx") = [false] :=
  ⟨rfl, rfl, rfl⟩

/-- C6 (amended): when either input list is empty no graph is built and
every reference is marked `not_matched = true` with `figure_id` absent —
but the outputs are rebuilt records holding exactly `text` (stringified),
`bbox`, `not_matched` and a freshly extracted `reference_type`; any other
input fields (such as `page_idx`) are dropped rather than preserved. -/
theorem c6_amended (references figures : List PyDict)
    (h : references = [] ∨ figures = []) :
    mapRefsFull references figures = .ok (create_unmapped_references references, emptyG) ∧
    ∀ d ∈ create_unmapped_references references,
      hasKey d "figure_id" = false ∧ dictLookup d "not_matched" = some (.vBool true) ∧
      d.map Prod.fst = ["text", "bbox", "not_matched", "reference_type"] := by
  constructor
  · apply mapRefsFull_empty_branch
    rcases h with rfl | rfl
    · simp
    · simp
  · intro d hd
    obtain ⟨r, _, rfl⟩ := List.mem_map.mp hd
    exact ⟨rfl, rfl, rfl⟩

/-- C6 witness: the amended statement for one reference and an empty figure
list. -/
theorem c6_witness :
    (([] : List PyDict) = [] ∨ ([] : List PyDict) = []) ∧
    mapRefsFull [c6ref] [] = .ok (create_unmapped_references [c6ref], emptyG) :=
  ⟨Or.inl rfl, (c6_amended [c6ref] [] (Or.inr rfl)).1⟩

/-! ## Claim C5 — ID-match edges -/

theorem mapGraph_cases (refs figs : List PyDict) :
    mapGraph refs figs = emptyG ∨ build_graph refs figs = .ok (mapGraph refs figs) := by
  unfold mapGraph
  cases hm : mapRefsFull refs figs with
  | error e => exact Or.inl rfl
  | ok p =>
    show p.2 = emptyG ∨ build_graph refs figs = .ok p.2
    rcases mapRefsFull_ok_inv hm with hflat | ⟨hb, _⟩
    · exact Or.inl (congrArg Prod.snd hflat)
    · exact Or.inr hb

theorem mapGraph_reached (refs figs : List PyDict) {P : Graph → Prop}
    (hempty : P emptyG)
    (hreach : ∀ g, BuildReach refs figs emptyG g → P g) : P (mapGraph refs figs) := by
  rcases mapGraph_cases refs figs with h | h
  · rw [h]; exact hempty
  · exact hreach _ (reach_build_graph h)

/-- C5 counterexample: (a) the spec's suffix-stripping rule does not exist —
for reference `fig. 1.2` and a figure whose own ID is `1.2a` (empty
caption) *no* edge is ever added and the reference ends `not_matched`;
(b) a caption-substring match gets weight 0.9, not the claimed 0.8. -/
theorem c5_counterexample :
    (mapLog c5refs c5figsA = [] ∧
      (mapOut c5refs c5figsA).map (fun d => dictLookup d "not_matched")
        = [some (.vBool true)]) ∧
    (mapLog c5refs c5figsB).map
        (fun e => (e.2.2.2, qEqB e.2.2.1 (mkQ 9 10), qEqB e.2.2.1 (mkQ 8 10)))
      = [("typed_id_match", true, false)] :=
  ⟨⟨rfl, rfl⟩, rfl⟩

/-- C5 (amended): every `typed_id_match` edge the mapper ever logs carries
weight exactly 0.9; there is no 0.8 caption-substring weight and no
trailing-suffix stripping — `_is_id_match` accepts only exact `figure_id`
equality or occurrence of the reference's ID as a substring of the figure's
lowered text, always at weight 0.9. -/
theorem c5_amended (refs figs : List PyDict) :
    ∀ e ∈ mapLog refs figs, e.2.2.2 = "typed_id_match" → e.2.2.1 = mkQ 9 10 := by
  have hinv : IdMatchLogNine (mapGraph refs figs) := by
    refine mapGraph_reached refs figs ?_ ?_
    · intro e he _
      simp [emptyG] at he
    · intro g hreach
      exact idMatchLogNine_reach hreach (by intro e he _; simp [emptyG] at he)
  exact fun e he hrel => hinv e he hrel

/-- C5 witness: the amended statement at the caption-substring scenario's
single logged edge. -/
theorem c5_witness :
    (("ref_0".toList, "9".toList, mkQ 9 10, "typed_id_match") ∈ mapLog c5refs c5figsB) ∧
    (("ref_0".toList, "9".toList, mkQ 9 10, "typed_id_match") :
        List Char × List Char × Qv × String).2.2.1 = mkQ 9 10 :=
  ⟨by decide, c5_amended c5refs c5figsB _ (by decide) rfl⟩

/-! ## Claim C1 — edge weights are overwritten, not summed -/

/-- C1 counterexample: in a scenario where three relation edges (ID match
0.9, same-page 0.4, semantic 0.3) are added between the same
reference–figure pair, their weights sum to 1.6 > 0.3, yet the reference
comes back `not_matched` — inference sees only the last-written weight 0.3,
which fails the strict `> 0.3` test. -/
theorem c1_counterexample :
    (mapLog c1refs c1figs).map (fun e => (e.1, e.2.1, e.2.2.2))
      = [("ref_0".toList, ['1'], "typed_id_match"),
         ("ref_0".toList, ['1'], "same_page_typed"),
         ("ref_0".toList, ['1'], "semantic_typed")] ∧
    qEqB (qSum ((pairLog (mapLog c1refs c1figs) "ref_0".toList ['1']).map
      (fun e => e.2.2.1))) (mkQ 16 10) = true ∧
    qLtB (mkQ 3 10) (qSum ((pairLog (mapLog c1refs c1figs) "ref_0".toList ['1']).map
      (fun e => e.2.2.1))) = true ∧
    (mapOut c1refs c1figs).map (fun d => dictLookup d "not_matched")
      = [some (.vBool true)] :=
  ⟨rfl, by decide, by decide, rfl⟩

/-- C1 (amended): the mapper's `DiGraph` stores a single edge per ordered
pair, and `add_edge` overwrites it, so the weight inference reads for a
candidate figure is the weight of the **last** `add_edge` call issued for
that pair — not the sum over all relations; the candidate list used for
ranking and for the strict `> 0.3` test carries exactly that stored
weight. -/
theorem c1_amended (refs figs : List PyDict) (u v : List Char) (ed : EdgeData)
    (h : edgeData (mapGraph refs figs) u v = some ed) :
    (∃ pre, pairLog (mapLog refs figs) u v = pre ++ [(u, v, ed.weight, ed.relation)]) ∧
    (∀ w2, (v, w2) ∈ connected_figures (mapGraph refs figs) u → w2 = ed.weight) := by
  constructor
  · have hinv : EdgeIsLastLogged (mapGraph refs figs) := by
      refine mapGraph_reached refs figs edgeIsLastLogged_empty ?_
      intro g hreach
      exact edgeIsLastLogged_reach hreach edgeIsLastLogged_empty
    exact hinv u v ed h
  · intro w2 hw2
    obtain ⟨nd, _, _, hwq⟩ := mem_connected_figures _ u (v, w2) hw2
    rw [h] at hwq
    exact hwq

/-- C1 witness: the amended statement at the counterexample scenario's
stored (last-written, semantic) edge. -/
theorem c1_witness :
    edgeData (mapGraph c1refs c1figs) "ref_0".toList ['1'] = some c1storedEdge ∧
    (∃ pre, pairLog (mapLog c1refs c1figs) "ref_0".toList ['1']
      = pre ++ [("ref_0".toList, ['1'], c1storedEdge.weight, c1storedEdge.relation)]) :=
  ⟨rfl, (c1_amended c1refs c1figs "ref_0".toList ['1'] c1storedEdge rfl).1⟩

/-! ## Claim C2 — typed end-to-end scenario -/

/-- C2 counterexample: in the spec's end-to-end scenario all three figures
share the node key `"2.31"`, whose attributes are overwritten by the last
(`table`) figure; the reference `Fig. 2.31` therefore finds no
type-compatible figure node and comes back `not_matched`, contradicting
"each Reference resolves". -/
theorem c2_counterexample :
    (mapOut c2refs c2figs).map (fun d => dictLookup d "not_matched")
      = [some (.vBool true), some (.vBool true), some (.vBool false)] ∧
    dictLookup ((mapOut c2refs c2figs).getD 0 []) "not_matched" = some (.vBool true) :=
  ⟨rfl, rfl⟩

/-- C2 (amended): the three same-ID figures collapse into the single node
`"2.31"` (4 nodes total: one figure node, three reference nodes), whose
surviving attributes are the last-added figure's (`table`); consequently
only `Table 2.31` resolves (to `"2.31"`, typed `table`) and `Fig. 2.31`
and `(2.31)` are `not_matched`. -/
theorem c2_amended :
    (mapOut c2refs c2figs).map (fun d =>
        (dictLookup d "not_matched", dictLookup d "figure_id", dictLookup d "reference_type"))
      = [(some (.vBool true), none, none),
         (some (.vBool true), none, none),
         (some (.vBool false), some (.vStr "2.31"), some (.vStr "table"))] ∧
    (mapGraph c2refs c2figs).nodes.length = 4 ∧
    (findNode (mapGraph c2refs c2figs) "2.31".toList).map (fun nd => nd.fig_type)
      = some RefType.TABLE :=
  ⟨rfl, rfl, rfl⟩

/-! ## Claim C4 — exception behaviour of the mapping call -/

/-- C4 counterexample: `map_references_to_figures` has no boundary
`try/except`; a figure whose `page_idx` is the non-numeric string `"abc"`
makes `int(...)` raise `ValueError`, which propagates to the caller instead
of degrading to "all unmatched". -/
theorem c4_counterexample :
    map_references_to_figures c4refs c4figs = .error "ValueError" ∧
    c4refs ≠ [] ∧ c4figs ≠ [] :=
  ⟨rfl, List.cons_ne_nil _ _, List.cons_ne_nil _ _⟩

/-- C4 (amended): the mapping boundary catches nothing; exceptions escape
(e.g. `ValueError` from a non-int-convertible `page_idx`).  Only the
narrow inner guards exist (float casts in `_calculate_distance`, the weight
cast in inference), so the call returns normally whenever every reference's
and figure's `page_idx` is `int`-convertible and every `bbox` field is a
dict or falsy. -/
theorem c4_amended (refs figs : List PyDict)
    (hf : ∀ f ∈ figs, intOkB (pyGet f "page_idx" (.vInt 0)) = true ∧
      dictish (pyGet f "bbox" (.vDict [])) = true)
    (hr : ∀ r ∈ refs, intOkB (pyGet r "page_idx" (.vInt 0)) = true ∧
      dictish (pyGet r "bbox" (.vDict [])) = true) :
    ∃ out, map_references_to_figures refs figs = .ok out := by
  by_cases hempty : (refs.isEmpty || figs.isEmpty) = true
  · refine ⟨create_unmapped_references refs, ?_⟩
    unfold map_references_to_figures
    rw [mapRefsFull_empty_branch hempty]
    rfl
  · obtain ⟨g, hg⟩ := build_graph_ok refs figs hf hr
    refine ⟨mapped_references g (infer_relationships g) 0 refs, ?_⟩
    unfold map_references_to_figures mapRefsFull
    rw [if_neg hempty, hg]
    rfl

/-- C4 witness: the amended statement at a well-formed one-reference,
one-figure input. -/
theorem c4_witness :
    (∀ f ∈ [[("figure_id", Val.vStr "z"), ("page_idx", Val.vInt 2)]],
      intOkB (pyGet f "page_idx" (.vInt 0)) = true ∧
      dictish (pyGet f "bbox" (.vDict [])) = true) ∧
    ∃ out, map_references_to_figures
      [[("text", Val.vStr "a"), ("page_idx", Val.vInt 0)]]
      [[("figure_id", Val.vStr "z"), ("page_idx", Val.vInt 2)]] = .ok out :=
  ⟨by decide, c4_amended _ _ (by decide) (by decide)⟩

/-! ## Claim C3 — per-page mapping against accumulated figures -/

/-- The document-wide figure list accumulated after the first `n` pages
(pages with a falsy `image_path` contribute nothing). -/
def figsUpTo : List PageIn → Nat → List PyDict
  | _, 0 => []
  | [], _ => []
  | p :: rest, Nat.succ n =>
    if pyTruthy p.image_path then
      (p.layout_blocks.map (fun b => generate_figure_info b p.index)) ++ figsUpTo rest n
    else figsUpTo rest n

theorem process_pages_prefix :
    ∀ (pages : List PageIn) (A : List PyDict) (res : List PageOut × List PyDict),
      process_pages A pages = .ok res →
      ∀ (i : Nat) (p : PageIn), pages.get? i = some p → pyTruthy p.image_path = true →
        ∃ mapped, map_references_to_figures (extract_references p.text_blocks none)
            (A ++ figsUpTo pages (i + 1)) = .ok mapped ∧
          res.1.get? i = some ⟨p.index, some mapped⟩ := by
  intro pages
  induction pages with
  | nil => intro A res h i p hp himg; simp at hp
  | cons q rest ih =>
    intro A res h i p hp himg
    rw [process_pages] at h
    split_ifs at h with hskip
    · obtain ⟨r1, hr1, h2⟩ := bind_ok h
      simp at h2
      cases i with
      | zero =>
        simp at hp
        rw [hp] at hskip
        rw [himg] at hskip
        exact absurd hskip (by decide)
      | succ j =>
        have hp2 : rest.get? j = some p := hp
        obtain ⟨mapped, hm, hres⟩ := ih A r1 hr1 j p hp2 himg
        refine ⟨mapped, ?_, ?_⟩
        · rw [show figsUpTo (q :: rest) (j + 1 + 1) = figsUpTo rest (j + 1) from by
            rw [figsUpTo, if_neg (by simpa using hskip)]]
          exact hm
        · rw [← h2]
          exact hres
    · have htq : pyTruthy q.image_path = true := by simpa using hskip
      obtain ⟨mapped0, hm0, h2⟩ := bind_ok h
      obtain ⟨r1, hr1, h3⟩ := bind_ok h2
      simp at h3
      cases i with
      | zero =>
        simp at hp
        rw [← hp] at himg ⊢
        refine ⟨mapped0, ?_, ?_⟩
        · rw [show figsUpTo (q :: rest) 1
              = (q.layout_blocks.map (fun b => generate_figure_info b q.index)) ++ [] from by
            rw [figsUpTo, if_pos htq, figsUpTo]]
          rw [List.append_nil]
          exact hm0
        · rw [← h3]
          rfl
      | succ j =>
        have hp2 : rest.get? j = some p := hp
        obtain ⟨mapped, hm, hres⟩ :=
          ih (A ++ q.layout_blocks.map (fun b => generate_figure_info b q.index)) r1 hr1 j p hp2 himg
        refine ⟨mapped, ?_, ?_⟩
        · rw [show figsUpTo (q :: rest) (j + 1 + 1)
              = (q.layout_blocks.map (fun b => generate_figure_info b q.index))
                ++ figsUpTo rest (j + 1) from by
            rw [figsUpTo, if_pos htq]]
          rw [← List.append_assoc]
          exact hm
        · rw [← h3]
          exact hres

/-- C3 (amended): the pipeline hands the mapper one call **per page**, with
that page's extracted references and the figures accumulated from pages up
to and including it — so a reference can only resolve against figures from
its own or earlier pages, not the whole document. -/
theorem c3_amended (pages : List PageIn) (res : List PageOut × List PyDict)
    (h : process_pdf pages = .ok res) (i : Nat) (p : PageIn)
    (hp : pages.get? i = some p) (himg : pyTruthy p.image_path = true) :
    ∃ mapped, map_references_to_figures (extract_references p.text_blocks none)
        (figsUpTo pages (i + 1)) = .ok mapped ∧
      res.1.get? i = some ⟨p.index, some mapped⟩ := by
  have := process_pages_prefix pages [] res h i p hp himg
  simpa using this

def c3res : List PageOut × List PyDict := ((process_pdf [c3p0, c3p1]).toOption).getD ([], [])

/-- C3 counterexample: a two-page document whose only reference (`Fig. 1`,
page 0) cites the only figure (page 1).  The pipeline leaves it
`not_matched` — the mapper ran for page 0 before page 1's figure existed —
whereas a single document-wide call with the complete lists resolves it to
figure `"1"`.  So the mapper is not called once with the complete lists. -/
theorem c3_counterexample :
    ((process_pdf [c3p0, c3p1]).toOption.map (fun r =>
        r.1.map (fun po => po.references.map (fun rs =>
          rs.map (fun d => dictLookup d "not_matched")))))
      = some [some [some (.vBool true)], some []] ∧
    ((map_references_to_figures (extract_references c3p0.text_blocks none)
        (figsUpTo [c3p0, c3p1] 2)).toOption.map (fun outs =>
          outs.map (fun d => (dictLookup d "figure_id", dictLookup d "not_matched"))))
      = some [(some (.vStr "1"), some (.vBool false))] :=
  ⟨rfl, rfl⟩

/-- C3 witness: the amended statement at the two-page scenario, page 0. -/
theorem c3_witness :
    process_pdf [c3p0, c3p1] = .ok c3res ∧
    [c3p0, c3p1].get? 0 = some c3p0 ∧ pyTruthy c3p0.image_path = true ∧
    ∃ mapped, map_references_to_figures (extract_references c3p0.text_blocks none)
        (figsUpTo [c3p0, c3p1] 1) = .ok mapped ∧
      c3res.1.get? 0 = some ⟨c3p0.index, some mapped⟩ :=
  ⟨rfl, rfl, rfl, c3_amended [c3p0, c3p1] c3res rfl 0 c3p0 rfl rfl⟩

/-! ## Claim C10 — resolved references point at real input figures -/

/-- C10: figures whose `figure_id` is missing or stringifies to the empty
string are never added to the resolution graph (every node tagged `figure`
carries the nonempty `str(figure_id)` of some input figure), and every
output reference with `not_matched == false` carries a nonempty
`figure_id` string equal to `str(figure_id)` of some input figure. -/
theorem c10_theorem (refs figs : List PyDict) :
    (∀ kv ∈ (mapGraph refs figs).nodes, kv.2.ntype = "figure" →
      kv.1 ≠ [] ∧ ∃ f ∈ figs, kv.1 = pyStrChars (pyGet f "figure_id" (.vStr ""))) ∧
    (∀ (i : Nat) (d : PyDict), (mapOut refs figs).get? i = some d →
      dictLookup d "not_matched" = some (.vBool false) →
      ∃ s : String, dictLookup d "figure_id" = some (.vStr s) ∧ s ≠ "" ∧
        ∃ f ∈ figs, s = String.mk (pyStrChars (pyGet f "figure_id" (.vStr "")))) := by
  have hfig : FigNodesFromInput figs (mapGraph refs figs) := by
    refine mapGraph_reached refs figs ?_ ?_
    · intro kv hkv _
      simp [emptyG] at hkv
    · intro g hreach
      exact figNodesFromInput_reach hreach (by intro kv hkv _; simp [emptyG] at hkv)
  refine ⟨hfig, ?_⟩
  intro i d hd hm
  cases hmm : mapRefsFull refs figs with
  | error e =>
    have hout : mapOut refs figs = [] := by
      unfold mapOut map_references_to_figures
      rw [hmm]
      rfl
    rw [hout] at hd
    simp at hd
  | ok p =>
    have houtp : mapOut refs figs = p.1 := by
      unfold mapOut map_references_to_figures
      rw [hmm]
      rfl
    rw [houtp] at hd
    rcases mapRefsFull_ok_inv hmm with hflat | ⟨hb, hout⟩
    · rw [congrArg Prod.fst hflat] at hd
      unfold create_unmapped_references at hd
      rw [List.get?_eq_getElem?, List.getElem?_map, ← List.get?_eq_getElem?] at hd
      obtain ⟨r, hr, hfr⟩ := Option.map_eq_some'.mp hd
      have hnm : dictLookup d "not_matched" = some (.vBool true) := by
        rw [← hfr]; rfl
      rw [hnm] at hm
      simp at hm
    · have hmg : mapGraph refs figs = p.2 := by
        unfold mapGraph
        rw [hmm]
        rfl
      rw [hout, mapped_references_get] at hd
      obtain ⟨r, hr, hdr⟩ := Option.map_eq_some'.mp hd
      unfold mapped_reference at hdr
      cases halk : alookup (infer_relationships p.2) (refNodeKey (0 + i)) with
      | none =>
        rw [halk] at hdr
        dsimp only at hdr
        have hnm : dictLookup d "not_matched" = some (.vBool true) := by
          rw [← hdr]; rfl
        rw [hnm] at hm
        simp at hm
      | some figKey =>
        rw [halk] at hdr
        dsimp only at hdr
        have hmem := alookup_mem _ _ _ halk
        obtain ⟨nd, hnd, htag⟩ := infer_mappings_target p.2 _ hmem
        have hkvmem : (figKey, nd) ∈ (mapGraph refs figs).nodes := by
          rw [hmg]
          exact findNode_mem p.2 figKey nd hnd
        obtain ⟨hne, f, hf, hkey⟩ := hfig (figKey, nd) hkvmem htag
        refine ⟨String.mk figKey, ?_, ?_, f, hf, ?_⟩
        · rw [← hdr]; rfl
        · intro hs
          exact hne (congrArg String.data hs)
        · exact congrArg String.mk hkey
  -- (the two `rw [← hdr]`/`rw [← hfr]` goals close by `rfl` on literal keys)

/-- C10 witness: the theorem's output clause at a concrete matched
reference. -/
theorem c10_witness :
    (mapOut c10refs c10figs).get? 0 = some ((mapOut c10refs c10figs).getD 0 []) ∧
    dictLookup ((mapOut c10refs c10figs).getD 0 []) "not_matched" = some (.vBool false) ∧
    ∃ s : String, dictLookup ((mapOut c10refs c10figs).getD 0 []) "figure_id"
        = some (.vStr s) ∧ s ≠ "" ∧
      ∃ f ∈ c10figs, s = String.mk (pyStrChars (pyGet f "figure_id" (.vStr ""))) :=
  ⟨rfl, rfl, (c10_theorem c10refs c10figs).2 0 _ rfl rfl⟩
